import Mathlib

/-!
# Verification of the tier-list storage & mutation engine

Shallow embedding of the core of the `tier-list` repository:
the tier-list document model (`src/types/index.ts`), the mutation engine
`TierListService` (`src/services/TierListService.ts`), the
`LocalStorageProvider` (`src/storage/LocalStorageProvider.ts`) and the
helpers from `src/utils/index.ts`.

Modelling conventions:
* JavaScript `Date` values are modelled as `Nat` timestamps; `new Date()`
  is an explicit `now : Nat` argument threaded through the operations.
* `generateId` (uuidv4) is modelled as an injective supply `genId : Nat → String`
  drawn from a counter threaded through the engine state; uniqueness of
  generated ids relative to pre-existing ids is a hypothesis where needed.
* `async` methods never interleave in the source (each awaits its storage
  calls); they are modelled as pure state-passing functions.
* A stateful operation returns `Except String α × State`.  Every `throw`
  in the source happens before the single `save`/`setItem` call of the
  operation, so error paths return the input state unchanged, which is
  exactly the observable store behaviour of the source.
* Thrown `Error` messages are carried verbatim in the `Except String` error.
-/

namespace TierListApp

/-! ## Data model (`src/types/index.ts`) -/

/-- `TierListItem.metadata` (optional attributes of an item). -/
structure ItemMetadata where
  originalFileName : Option String
  uploadDate : Option Nat
  size : Option Nat
deriving Repr, DecidableEq

/-- `TierListItem` from `src/types/index.ts`.  `type` is `'text' | 'image'`. -/
structure TierListItem where
  id : String
  type : String
  content : String
  metadata : Option ItemMetadata
deriving Repr, DecidableEq

/-- `Tier` from `src/types/index.ts`.  `order` only ever holds list
indices/lengths, hence `Nat`. -/
structure Tier where
  id : String
  label : String
  color : String
  items : List TierListItem
  order : Nat
deriving Repr, DecidableEq

/-- `TierList.metadata`. -/
structure TierListMetadata where
  createdAt : Nat
  updatedAt : Nat
  version : Nat
  author : Option String
deriving Repr, DecidableEq

/-- `TierList.settings`. -/
structure TierListSettings where
  theme : String
  layout : String
  showLabels : Bool
deriving Repr, DecidableEq

/-- `TierList` (the Document aggregate root) from `src/types/index.ts`. -/
structure TierList where
  id : String
  title : String
  description : Option String
  tiers : List Tier
  unrankedItems : List TierListItem
  metadata : TierListMetadata
  settings : TierListSettings
deriving Repr, DecidableEq

/-! ## Identifier generation (`generateId` in `src/utils/index.ts`)

`generateId` returns a fresh uuidv4 string.  The model draws identifiers
from the injective supply `genId`; the engine state carries the next
counter value.  That the supply never collides with ids already present
in a document is a hypothesis of the theorems that need it (for uuids it
holds with overwhelming probability, and the source assumes it). -/

/-- Model of `generateId`: the `n`-th freshly generated identifier. -/
def genId (n : Nat) : String :=
  ⟨'#' :: List.replicate n '#'⟩

/-! ## Generic list helpers mirroring the JavaScript array operations -/

/-- JavaScript `Array.prototype.splice(start, 0, x)` index resolution:
a negative `start` counts back from the end (clamped below at `0`),
a `start` beyond the length is clamped to the length. -/
def spliceIdx (len : Nat) (pos : Int) : Nat :=
  if pos < 0 then ((len : Int) + pos).toNat else min pos.toNat len

/-- Insert `a` at index `n` of `l` (appending when `n ≥ l.length`),
as `splice(n, 0, a)` does after index resolution. -/
def insertAt (a : α) : Nat → List α → List α
  | _, [] => [a]
  | 0, l => a :: l
  | n + 1, x :: xs => x :: insertAt a n xs

/-- `findIndex` + `splice(i, 1)` combined: remove the first element
satisfying `p`, returning it and the remaining list, or `none`. -/
def removeFirst (p : α → Bool) : List α → Option (α × List α)
  | [] => none
  | x :: xs =>
    if p x then some (x, xs)
    else (removeFirst p xs).map (fun r => (r.1, x :: r.2))

/-- Upsert into an association list: JavaScript object property
assignment `o[k] = v` updates an existing key in place and appends a
missing key. -/
def upsert (k : String) (v : β) : List (String × β) → List (String × β)
  | [] => [(k, v)]
  | (k', v') :: rest =>
    if k' = k then (k, v) :: rest else (k', v') :: upsert k v rest

/-- Association-list lookup, `o[k]` (`none` = `undefined`). -/
def alookup (k : String) : List (String × β) → Option β
  | [] => none
  | (k', v) :: rest => if k' = k then some v else alookup k rest

/-! ## Engine state

`TierListService` talks to an abstract `StorageProvider`; for the
engine-level claims the store is the provider-interface view: a finite
map from document id to document (`save` upserts, `load` looks up).
The state also carries the `generateId` counter. -/

structure EngineState where
  store : List (String × TierList)
  ctr : Nat
deriving Repr, DecidableEq

/-- `storage.load(id)` as seen by the engine. -/
def loadDoc (st : EngineState) (id : String) : Option TierList :=
  alookup id st.store

/-! ## `TierListService` operations (`src/services/TierListService.ts`) -/

/-- `updateTierList`: bump `version`, refresh `updatedAt`, `storage.save`.
(The `tierListUpdated` event is modelled separately, see `emitRun`.) -/
def updateTierList (now : Nat) (tl : TierList) (st : EngineState) : EngineState :=
  let tl' := { tl with metadata :=
    { tl.metadata with updatedAt := now, version := tl.metadata.version + 1 } }
  { st with store := upsert tl'.id tl' st.store }

/-- `createDefaultTiers` from `src/utils/index.ts`. -/
def createDefaultTiers (ctr : Nat) : List Tier :=
  let labels := ["S", "A", "B", "C", "D"]
  let colors := ["#ff4444", "#ff8800", "#ffdd00", "#88dd00", "#4488dd"]
  (List.range 5).map fun i =>
    { id := genId (ctr + i)
      label := labels.getD i ""
      color := colors.getD i ""
      items := []
      order := i }

/-- `createTierList`. -/
def createTierList (title : String) (description : Option String) (now : Nat)
    (st : EngineState) : TierList × EngineState :=
  let tl : TierList :=
    { id := genId st.ctr
      title := title
      description := description
      tiers := createDefaultTiers (st.ctr + 1)
      unrankedItems := []
      metadata := { createdAt := now, updatedAt := now, version := 1, author := none }
      settings := { theme := "default", layout := "standard", showLabels := true } }
  (tl, { store := upsert tl.id tl st.store, ctr := st.ctr + 6 })

/-- `addItem`: fresh id, append to the unranked pool, `updateTierList`. -/
def addItem (tierListId : String) (item : TierListItem) (now : Nat)
    (st : EngineState) : Except String TierListItem × EngineState :=
  match loadDoc st tierListId with
  | none => (.error "Tier list not found", st)
  | some tl =>
    let newItem := { item with id := genId st.ctr }
    (.ok newItem,
      updateTierList now { tl with unrankedItems := tl.unrankedItems ++ [newItem] }
        { st with ctr := st.ctr + 1 })

/-- `findAndRemoveItem` (private): scan the unranked pool first, then the
tiers in order; remove the first item whose id matches. -/
def findAndRemoveItem (tl : TierList) (itemId : String) :
    Option (TierListItem × TierList) :=
  match removeFirst (fun i => i.id = itemId) tl.unrankedItems with
  | some (it, rest) => some (it, { tl with unrankedItems := rest })
  | none =>
    match removeFromTiers tl.tiers itemId with
    | some (it, tiers') => some (it, { tl with tiers := tiers' })
    | none => none
where
  /-- The tier-scanning loop of `findAndRemoveItem`. -/
  removeFromTiers : List Tier → String → Option (TierListItem × List Tier)
    | [], _ => none
    | t :: ts, itemId =>
      match removeFirst (fun i => i.id = itemId) t.items with
      | some (it, rest) => some (it, { t with items := rest } :: ts)
      | none => (removeFromTiers ts itemId).map (fun r => (r.1, t :: r.2))

/-- Insert `item` at splice-resolved `position` into the items of the
first tier whose id is `tid` (`targetTier.items.splice(position, 0, item)`);
`none` when no tier matches (`Target tier not found`). -/
def insertIntoTier (tid : String) (item : TierListItem) (position : Int) :
    List Tier → Option (List Tier)
  | [] => none
  | t :: ts =>
    if t.id = tid then
      some ({ t with items := insertAt item (spliceIdx t.items.length position) t.items } :: ts)
    else
      (insertIntoTier tid item position ts).map (t :: ·)

/-- `moveItem`.  `if (targetTierId)` in the source is JavaScript
truthiness: both `null` and the empty string select the unranked pool. -/
def moveItem (tierListId itemId : String) (targetTierId : Option String)
    (position : Int) (now : Nat) (st : EngineState) :
    Except String Unit × EngineState :=
  match loadDoc st tierListId with
  | none => (.error "Tier list not found", st)
  | some tl =>
    match findAndRemoveItem tl itemId with
    | none => (.error "Item not found", st)
    | some (item, tl1) =>
      let intoUnranked :=
        { tl1 with unrankedItems :=
            insertAt item (spliceIdx tl1.unrankedItems.length position) tl1.unrankedItems }
      match targetTierId with
      | none => (.ok (), updateTierList now intoUnranked st)
      | some tid =>
        if tid = "" then (.ok (), updateTierList now intoUnranked st)
        else
          match insertIntoTier tid item position tl1.tiers with
          | none => (.error "Target tier not found", st)
          | some tiers' => (.ok (), updateTierList now { tl1 with tiers := tiers' } st)

/-- The `{label?, color?}` update object of `updateTier`. -/
structure TierUpdates where
  label : Option String
  color : Option String
deriving Repr, DecidableEq

/-- `Object.assign(tier, updates)` applied to the first tier with id `tid`. -/
def assignTier (tid : String) (u : TierUpdates) : List Tier → Option (List Tier)
  | [] => none
  | t :: ts =>
    if t.id = tid then
      some ({ t with label := u.label.getD t.label, color := u.color.getD t.color } :: ts)
    else
      (assignTier tid u ts).map (t :: ·)

/-- `updateTier`. -/
def updateTier (tierListId tierId : String) (updates : TierUpdates) (now : Nat)
    (st : EngineState) : Except String Unit × EngineState :=
  match loadDoc st tierListId with
  | none => (.error "Tier list not found", st)
  | some tl =>
    match assignTier tierId updates tl.tiers with
    | none => (.error "Tier not found", st)
    | some tiers' => (.ok (), updateTierList now { tl with tiers := tiers' } st)

/-- `addTier`: append a tier with `order = tiers.length`. -/
def addTier (tierListId label color : String) (now : Nat) (st : EngineState) :
    Except String Tier × EngineState :=
  match loadDoc st tierListId with
  | none => (.error "Tier list not found", st)
  | some tl =>
    let newTier : Tier :=
      { id := genId st.ctr, label := label, color := color, items := [],
        order := tl.tiers.length }
    (.ok newTier,
      updateTierList now { tl with tiers := tl.tiers ++ [newTier] }
        { st with ctr := st.ctr + 1 })

/-- Renumber tier `order` fields to consecutive indices starting at `i`
(the `forEach((t, index) => t.order = index)` loop). -/
def renumber (i : Nat) : List Tier → List Tier
  | [] => []
  | t :: ts => { t with order := i } :: renumber (i + 1) ts

/-- `removeTier`: move the tier's items to the end of the unranked pool,
drop the tier, renumber the remaining tiers. -/
def removeTier (tierListId tierId : String) (now : Nat) (st : EngineState) :
    Except String Unit × EngineState :=
  match loadDoc st tierListId with
  | none => (.error "Tier list not found", st)
  | some tl =>
    match removeFirst (fun t => t.id = tierId) tl.tiers with
    | none => (.error "Tier not found", st)
    | some (tier, rest) =>
      (.ok (),
        updateTierList now
          { tl with unrankedItems := tl.unrankedItems ++ tier.items,
                    tiers := renumber 0 rest } st)

/-- `tierMap.get id`: `new Map(entries)` keeps the last entry for a
duplicated key, hence the reversed scan. -/
def tierMapGet (tiers : List Tier) (id : String) : Option Tier :=
  tiers.reverse.find? (fun t => t.id = id)

/-- The `tierIds.map((id, index) => ...)` loop of `reorderTiers`:
look every id up, set `order := index`, throw at the first unknown id.
(The source mutates shared tier objects; with duplicate-free tier-id
lists — the only ones reachable — the copying semantics agrees.) -/
def pickTiers (tiers : List Tier) (i : Nat) :
    List String → Except String (List Tier)
  | [] => .ok []
  | id :: rest =>
    match tierMapGet tiers id with
    | none => .error ("Tier with id " ++ id ++ " not found")
    | some t => (pickTiers tiers (i + 1) rest).map ({ t with order := i } :: ·)

/-- `reorderTiers`: rewrite the tier sequence to the given id order.
Note the source has no check that `tierIds` mentions every tier. -/
def reorderTiers (tierListId : String) (tierIds : List String) (now : Nat)
    (st : EngineState) : Except String Unit × EngineState :=
  match loadDoc st tierListId with
  | none => (.error "Tier list not found", st)
  | some tl =>
    match pickTiers tl.tiers 0 tierIds with
    | .error e => (.error e, st)
    | .ok tiers' => (.ok (), updateTierList now { tl with tiers := tiers' } st)

/-! ## `duplicateTierList`

`deepClone` (`src/utils/index.ts`) is a structural deep copy of the
closed Document/Tier/Item shapes; on the immutable Lean model it is the
identity, after which fresh ids are assigned in the source's program
order: document id, then each tier's id followed by its items' ids, then
the unranked items' ids. -/

/-- `deepClone` from `src/utils/index.ts` restricted to the document
shape: a structural copy, i.e. the identity on immutable data. -/
def deepClone (tl : TierList) : TierList := tl

/-- Assign fresh ids to every item of a list, in order, threading the
id-supply counter. -/
def freshItems (c : Nat) : List TierListItem → List TierListItem × Nat
  | [] => ([], c)
  | it :: rest =>
    let r := freshItems (c + 1) rest
    ({ it with id := genId c } :: r.1, r.2)

/-- Assign fresh ids to every tier and every tier item, in order. -/
def freshTiers (c : Nat) : List Tier → List Tier × Nat
  | [] => ([], c)
  | t :: ts =>
    let ri := freshItems (c + 1) t.items
    let rt := freshTiers ri.2 ts
    ({ t with id := genId c, items := ri.1 } :: rt.1, rt.2)

/-- The duplicate's title, `newTitle || \x7b...\x7d (Copy)`: JavaScript
truthiness, so an empty `newTitle` falls back to the copy title. -/
def copyTitle (origTitle : String) : Option String → String
  | some t => if t = "" then origTitle ++ " (Copy)" else t
  | none => origTitle ++ " (Copy)"

/-- `duplicateTierList`. -/
def duplicateTierList (tierListId : String) (newTitle : Option String)
    (now : Nat) (st : EngineState) : Except String TierList × EngineState :=
  match loadDoc st tierListId with
  | none => (.error "Tier list not found", st)
  | some orig =>
    let c := deepClone orig
    let title := copyTitle orig.title newTitle
    let rt := freshTiers (st.ctr + 1) c.tiers
    let ru := freshItems rt.2 c.unrankedItems
    let dup := { c with
      id := genId st.ctr
      title := title
      tiers := rt.1
      unrankedItems := ru.1
      metadata := { c.metadata with createdAt := now, updatedAt := now, version := 1 } }
    (.ok dup, { store := upsert dup.id dup st.store, ctr := ru.2 })

/-! ## Item-id bookkeeping -/

/-- The item ids of a document, tiers first (in tier order) then the
unranked pool: the multiset union of §3's invariant. -/
def allItemIds (tl : TierList) : List String :=
  (tl.tiers.map (fun t => t.items.map (·.id))).flatten ++ tl.unrankedItems.map (·.id)

/-- Every id occurring in a document: the document id, the tier ids and
the item ids. -/
def allIds (tl : TierList) : List String :=
  tl.id :: (tl.tiers.map (fun t => t.id :: t.items.map (·.id))).flatten
    ++ tl.unrankedItems.map (·.id)

/-! ## JavaScript values

The provider and the import paths handle arbitrary `JSON.parse` output,
so they are modelled over a JavaScript-value type.  `jdate` is an
in-memory `Date` object (it serialises like its ISO string, modelled as
the decimal timestamp).  JavaScript arrays accept named expando
properties, carried in `props`; `JSON.parse` always yields `props = []`
and `JSON.stringify` drops them. -/

inductive JValue where
  | jnull
  | jbool (b : Bool)
  | jnum (n : Int)
  | jstr (s : String)
  | jdate (t : Nat)
  | jarr (elems : List JValue) (props : List (String × JValue))
  | jobj (fields : List (String × JValue))

/-- JavaScript truthiness of a value (`NaN` does not arise in the model). -/
def truthy : JValue → Bool
  | .jnull => false
  | .jbool b => b
  | .jnum n => n != 0
  | .jstr s => s != ""
  | _ => true

/-- `typeof v === 'object'` (true for objects, arrays, `Date`s and `null`). -/
def isObjectType : JValue → Bool
  | .jobj _ => true
  | .jarr _ _ => true
  | .jdate _ => true
  | .jnull => true
  | _ => false

/-- Property read `v[k]` (`none` = `undefined`; reads on primitives box
to `undefined`, reads on `null` would throw but every use below is
guarded by a truthiness check first, as in the source). -/
def getField : JValue → String → Option JValue
  | .jobj fs, k => alookup k fs
  | .jarr _ props, k => alookup k props
  | _, _ => none

/-- `typeof v === 'string'` on an optional property. -/
def isStrField : Option JValue → Bool
  | some (.jstr _) => true
  | _ => false

/-- `Array.isArray(v)` on an optional property. -/
def isArrField : Option JValue → Bool
  | some (.jarr _ _) => true
  | _ => false

/-- Truthiness of an optional property (`undefined` is falsy). -/
def truthyField : Option JValue → Bool
  | some v => truthy v
  | none => false

/-- `Object.entries(v)`: object fields in insertion order; for arrays
the index keys followed by expando properties; empty for `Date`s. -/
def entriesOf : JValue → List (String × JValue)
  | .jobj fs => fs
  | .jarr elems props => (elems.enum.map fun p => (toString p.1, p.2)) ++ props
  | _ => []

/-- `validateTierList` from `src/utils/index.ts`: the structural schema
check (string `id` and `title`, array `tiers` and `unrankedItems`,
truthy `metadata` and `settings`). -/
def validateTierList (v : JValue) : Bool :=
  truthy v && isStrField (getField v "id") && isStrField (getField v "title")
    && isArrField (getField v "tiers") && isArrField (getField v "unrankedItems")
    && truthyField (getField v "metadata") && truthyField (getField v "settings")

/-- `String.prototype.includes`: `pat` occurs as a contiguous run. -/
def charsInclude (pat : List Char) : List Char → Bool
  | [] => pat.isEmpty
  | c :: rest => pat.isPrefixOf (c :: rest) || charsInclude pat rest

/-- `key.includes('Date') || key.includes('At')` from `parseDates`. -/
def isDateKey (k : String) : Bool :=
  charsInclude "Date".data k.data || charsInclude "At".data k.data

/-- `new Date(s)` on a string produced by date serialisation recovers
the timestamp; other strings give an unspecified value (modelled `0`,
the Invalid Date). -/
def parseDateStr (s : String) : Nat :=
  s.toNat?.getD 0

mutual
/-- `parseDates` from `src/utils/index.ts`: convert string values under
date-marked keys to `Date`s, recursing into object-typed values.
Spreading a `Date` (`\x7b...obj\x7d` on a non-date-keyed `Date`) yields
an empty object, and `Array.prototype.map` drops expando properties,
exactly as in JavaScript. -/
def parseDates : JValue → JValue
  | .jnull => .jnull
  | .jbool b => .jbool b
  | .jnum n => .jnum n
  | .jstr s => .jstr s
  | .jdate _ => .jobj []
  | .jarr elems _ => .jarr (parseDatesArr elems) []
  | .jobj fields => .jobj (parseDatesFields fields)

/-- Element map of `parseDates` over an array. -/
def parseDatesArr : List JValue → List JValue
  | [] => []
  | v :: vs => parseDates v :: parseDatesArr vs

/-- The `for (const key in result)` loop of `parseDates`. -/
def parseDatesFields : List (String × JValue) → List (String × JValue)
  | [] => []
  | (k, v) :: rest =>
    (k,
      if isDateKey k then
        match v with
        | .jstr s => .jdate (parseDateStr s)
        | _ => v
      else if isObjectType v then parseDatesField v
      else v) :: parseDatesFields rest

/-- Recursive call of `parseDates` on an object-typed field value. -/
def parseDatesField : JValue → JValue
  | .jnull => .jnull
  | .jbool b => .jbool b
  | .jnum n => .jnum n
  | .jstr s => .jstr s
  | .jdate _ => .jobj []
  | .jarr elems _ => .jarr (parseDatesArr elems) []
  | .jobj fields => .jobj (parseDatesFields fields)
end

/-- JSON string escaping for `JSON.stringify` (quote and backslash; the
control-character escapes are elided, which only affects the byte count
of strings containing control characters — none arise in the claims). -/
def escapeJson (s : String) : String :=
  ⟨s.data.flatMap fun c =>
    if c = '"' then ['\\', '"'] else if c = '\\' then ['\\', '\\'] else [c]⟩

mutual
/-- `JSON.stringify` (no indentation, as used by `saveAllData`):
`Date`s serialise as quoted timestamp strings, array expando properties
are dropped. -/
def stringifyJ : JValue → String
  | .jnull => "null"
  | .jbool b => if b then "true" else "false"
  | .jnum n => toString n
  | .jstr s => "\"" ++ escapeJson s ++ "\""
  | .jdate t => "\"" ++ toString t ++ "\""
  | .jarr elems _ => "[" ++ stringifyArr elems ++ "]"
  | .jobj fields => "\x7b" ++ stringifyFields fields ++ "\x7d"

/-- Comma-joined serialisation of array elements. -/
def stringifyArr : List JValue → String
  | [] => ""
  | [v] => stringifyJ v
  | v :: vs => stringifyJ v ++ "," ++ stringifyArr vs

/-- Comma-joined serialisation of object fields. -/
def stringifyFields : List (String × JValue) → String
  | [] => ""
  | [(k, v)] => "\"" ++ escapeJson k ++ "\":" ++ stringifyJ v
  | (k, v) :: fs => "\"" ++ escapeJson k ++ "\":" ++ stringifyJ v ++ "," ++ stringifyFields fs
end

mutual
/-- `JSON.parse (JSON.stringify v)`: what lands in storage when `v` is
written.  `Date`s become their serialised strings, expando properties
vanish. -/
def roundtripJ : JValue → JValue
  | .jnull => .jnull
  | .jbool b => .jbool b
  | .jnum n => .jnum n
  | .jstr s => .jstr s
  | .jdate t => .jstr (toString t)
  | .jarr elems _ => .jarr (roundtripArr elems) []
  | .jobj fields => .jobj (roundtripFields fields)

/-- `roundtripJ` over array elements. -/
def roundtripArr : List JValue → List JValue
  | [] => []
  | v :: vs => roundtripJ v :: roundtripArr vs

/-- `roundtripJ` over object fields. -/
def roundtripFields : List (String × JValue) → List (String × JValue)
  | [] => []
  | (k, v) :: fs => (k, roundtripJ v) :: roundtripFields fs
end

/-! ## Encoding documents as JavaScript values

Field order follows the object literals of the source (creation in
`createTierList`); `JSON.stringify` omits `undefined`-valued fields, so
absent optional fields are simply missing. -/

/-- Encode an item's optional metadata. -/
def encodeItemMetadata (m : ItemMetadata) : JValue :=
  .jobj ((match m.originalFileName with
      | some s => [("originalFileName", JValue.jstr s)]
      | none => [])
    ++ (match m.uploadDate with
      | some t => [("uploadDate", JValue.jdate t)]
      | none => [])
    ++ (match m.size with
      | some n => [("size", JValue.jnum n)]
      | none => []))

/-- Encode a `TierListItem`. -/
def encodeItem (it : TierListItem) : JValue :=
  .jobj ([("id", JValue.jstr it.id), ("type", JValue.jstr it.type),
      ("content", JValue.jstr it.content)]
    ++ (match it.metadata with
      | some m => [("metadata", encodeItemMetadata m)]
      | none => []))

/-- Encode a `Tier`. -/
def encodeTier (t : Tier) : JValue :=
  .jobj [("id", JValue.jstr t.id), ("label", JValue.jstr t.label),
    ("color", JValue.jstr t.color),
    ("items", JValue.jarr (t.items.map encodeItem) []),
    ("order", JValue.jnum t.order)]

/-- Encode a `TierList`. -/
def encodeTierList (tl : TierList) : JValue :=
  .jobj ([("id", JValue.jstr tl.id), ("title", JValue.jstr tl.title)]
    ++ (match tl.description with
      | some d => [("description", JValue.jstr d)]
      | none => [])
    ++ [("tiers", JValue.jarr (tl.tiers.map encodeTier) []),
      ("unrankedItems", JValue.jarr (tl.unrankedItems.map encodeItem) []),
      ("metadata", JValue.jobj
        ([("createdAt", JValue.jdate tl.metadata.createdAt),
          ("updatedAt", JValue.jdate tl.metadata.updatedAt),
          ("version", JValue.jnum tl.metadata.version)]
        ++ (match tl.metadata.author with
          | some a => [("author", JValue.jstr a)]
          | none => []))),
      ("settings", JValue.jobj
        [("theme", JValue.jstr tl.settings.theme),
          ("layout", JValue.jstr tl.settings.layout),
          ("showLabels", JValue.jbool tl.settings.showLabels)])])

/-! ## `LocalStorageProvider` (`src/storage/LocalStorageProvider.ts`)

The backing medium: the parse of the string stored under `STORAGE_KEY`
(`none` = key absent) and the companion `VERSION_KEY` string.  A stored
string that does not parse behaves exactly like an absent key in the
source (the `catch` in `loadAllData` falls back to empty data), so the
parsed representation loses nothing.  `isLocalStorageAvailable` is
assumed true (environment), and a medium-level `QuotaExceededError`
from `setItem` (environment-dependent) is not modelled — the size
check against `maxSize` is. -/

structure ProviderState where
  medium : Option JValue
  versionKey : Option String

/-- `LocalStorageData`, the Persisted Store Blob: `version` and the
settings fields keep whatever JavaScript values migration put there. -/
structure LocalStorageData where
  version : JValue
  tierLists : List (String × JValue)
  theme : JValue
  autoSave : JValue

/-- `CURRENT_VERSION`. -/
def CURRENT_VERSION : String := "1.0.0"

/-- `createEmptyData`. -/
def createEmptyData : LocalStorageData :=
  { version := .jstr CURRENT_VERSION, tierLists := [],
    theme := .jstr "default", autoSave := .jbool true }

/-- `validateAndMigrateData`: non-objects become a fresh empty blob;
otherwise `version` and the settings are carried over with defaults for
falsy/missing subfields (`??` for `autoSave`, so an explicit `false`
survives), and each `tierLists` entry is kept (dates parsed) only if
`validateTierList` passes.  The version-migration hook is a no-op. -/
def validateAndMigrateData (v : JValue) : LocalStorageData :=
  if !(truthy v && isObjectType v) then createEmptyData
  else
    let version :=
      match getField v "version" with
      | some w => if truthy w then w else .jstr CURRENT_VERSION
      | none => .jstr CURRENT_VERSION
    let settingsField := getField v "settings"
    let theme :=
      match settingsField with
      | none => JValue.jstr "default"
      | some .jnull => JValue.jstr "default"
      | some sv =>
        match getField sv "theme" with
        | some w => if truthy w then w else .jstr "default"
        | none => .jstr "default"
    let autoSave :=
      match settingsField with
      | none => JValue.jbool true
      | some .jnull => JValue.jbool true
      | some sv =>
        match getField sv "autoSave" with
        | none => JValue.jbool true
        | some .jnull => JValue.jbool true
        | some w => w
    let tls :=
      match getField v "tierLists" with
      | none => []
      | some tv =>
        if truthy tv && isObjectType tv then
          (entriesOf tv).foldl
            (fun acc p =>
              if validateTierList p.2 then upsert p.1 (parseDates p.2) acc else acc)
            []
        else []
    { version := version, tierLists := tls, theme := theme, autoSave := autoSave }

/-- The blob as the JavaScript object that is serialised and stored. -/
def dataToJ (d : LocalStorageData) : JValue :=
  .jobj [("version", d.version), ("tierLists", .jobj d.tierLists),
    ("settings", .jobj [("theme", d.theme), ("autoSave", d.autoSave)])]

/-- `JSON.stringify(data)` as used for the size check and the write. -/
def serializeData (d : LocalStorageData) : String :=
  stringifyJ (dataToJ d)

/-- `Math.round(n / 1024)` on a byte count. -/
def jsRoundKb (n : Nat) : Nat :=
  (2 * n + 1024) / 2048

/-- The `CapacityExceeded` message thrown by `saveAllData`. -/
def capacityMsg (size maxSize : Nat) : String :=
  "Data size (" ++ toString (jsRoundKb size) ++ "KB) exceeds maximum allowed size ("
    ++ toString (jsRoundKb maxSize) ++ "KB)"

/-- `loadAllData`: absent (or unparsable) medium yields fresh empty
data, otherwise the parsed value is validated and migrated.  Reads
never write the medium. -/
def loadAllData (st : ProviderState) : LocalStorageData :=
  match st.medium with
  | none => createEmptyData
  | some v => validateAndMigrateData v

/-- `saveAllData`: serialise the full blob, measure its UTF-8 byte size
(`new Blob([serialized]).size`), fail with `CapacityExceeded` before
writing when it exceeds `maxSize`; otherwise write the blob under the
storage key and the schema version under the companion key. -/
def saveAllData (maxSize : Nat) (d : LocalStorageData) (st : ProviderState) :
    Except String Unit × ProviderState :=
  let serialized := serializeData d
  let size := serialized.utf8ByteSize
  if size > maxSize then (.error (capacityMsg size maxSize), st)
  else (.ok (), { medium := some (roundtripJ (dataToJ d)),
                  versionKey := some CURRENT_VERSION })

/-- The effective capacity: `config.maxSize || 5 * 1024 * 1024`
(JavaScript `||`, so a configured `0` also falls back to the 5 MiB
default). -/
def effMaxSize (configured : Option Nat) : Nat :=
  match configured with
  | some n => if n = 0 then 5 * 1024 * 1024 else n
  | none => 5 * 1024 * 1024

/-- The blob `LocalStorageProvider.save` hands to `saveAllData`: the
loaded blob with the document (its `updatedAt` refreshed) upserted. -/
def savePayload (now : Nat) (tl : TierList) (st : ProviderState) : LocalStorageData :=
  let data := loadAllData st
  let doc := encodeTierList { tl with metadata := { tl.metadata with updatedAt := now } }
  { data with tierLists := upsert tl.id doc data.tierLists }

/-- `LocalStorageProvider.save`: read-validate-mutate-write of the whole
blob, refreshing the document's `updatedAt`. -/
def providerSave (maxSize now : Nat) (tl : TierList) (st : ProviderState) :
    Except String Unit × ProviderState :=
  saveAllData maxSize (savePayload now tl st) st

/-- `LocalStorageProvider.load`: look the id up in the validated blob;
`parseDates` on hit, `null` on miss.  Never writes. -/
def providerLoad (st : ProviderState) (id : String) : Option JValue :=
  match alookup id (loadAllData st).tierLists with
  | some v => if truthy v then some (parseDates v) else none
  | none => none

/-- `LocalStorageProvider.import`: parse (the `Except` argument is the
`JSON.parse` outcome), validate-and-migrate, then write the result as
the whole blob; any error is wrapped as `Failed to import data: ...`. -/
def providerImport (maxSize : Nat) (parsed : Except String JValue)
    (st : ProviderState) : Except String Unit × ProviderState :=
  match parsed with
  | .error e => (.error ("Failed to import data: " ++ e), st)
  | .ok j =>
    match saveAllData maxSize (validateAndMigrateData j) st with
    | (.ok _, st') => (.ok (), st')
    | (.error e, _) => (.error ("Failed to import data: " ++ e), st)

/-! ## Engine-level export and import (`TierListService`) -/

/-- `exportTierList`: full JSON serialisation of the document (the
source passes indentation `2` to `JSON.stringify`; pretty-printing is
not modelled, the serialised content is). -/
def exportTierList (tierListId : String) (st : EngineState) :
    Except String String × EngineState :=
  match loadDoc st tierListId with
  | none => (.error "Tier list not found", st)
  | some tl => (.ok (stringifyJ (encodeTierList tl)), st)

/-- Engine state for `importTierList`: the imported value is stored as
the raw JavaScript value the source hands to `storage.save` (no schema
validation happens on this path). -/
structure ImportState where
  jstore : List (String × JValue)
  ctr : Nat

/-- The mutations `importTierList` performs on the parsed value:
`tierList.id = generateId(); tierList.metadata.createdAt = new Date();
tierList.metadata.updatedAt = new Date(); tierList.metadata.version = 1`.
In strict mode a property assignment on a primitive (or a read of
`metadata` off an array that lacks it) throws `TypeError`, which the
source catches and wraps; `none` models that throw.  Arrays are
objects, so their expando properties are assignable. -/
def assignImport (v : JValue) (fresh : String) (now : Nat) : Option JValue :=
  let mutateMeta : JValue → Option JValue := fun mv =>
    match mv with
    | .jobj mf =>
      some (.jobj (upsert "version" (.jnum 1)
        (upsert "updatedAt" (.jdate now) (upsert "createdAt" (.jdate now) mf))))
    | .jarr elems props =>
      some (.jarr elems (upsert "version" (.jnum 1)
        (upsert "updatedAt" (.jdate now) (upsert "createdAt" (.jdate now) props))))
    | _ => none
  match v with
  | .jobj fields =>
    match alookup "metadata" fields with
    | some mv =>
      (mutateMeta mv).map fun mv' =>
        .jobj (upsert "metadata" mv' (upsert "id" (.jstr fresh) fields))
    | none => none
  | .jarr elems props =>
    match alookup "metadata" props with
    | some mv =>
      (mutateMeta mv).map fun mv' =>
        .jarr elems (upsert "metadata" mv' (upsert "id" (.jstr fresh) props))
    | none => none
  | _ => none

/-- `importTierList`: parse, mutate id/metadata, persist under the
fresh id, return the document.  Parse failures and the `TypeError`s of
`assignImport` are wrapped as `ImportError`. -/
def importTierList (parsed : Except String JValue) (now : Nat)
    (st : ImportState) : Except String JValue × ImportState :=
  match parsed with
  | .error e => (.error ("Failed to import tier list: " ++ e), st)
  | .ok v =>
    match assignImport v (genId st.ctr) now with
    | none => (.error "Failed to import tier list: TypeError", st)
    | some v' =>
      (.ok v', { jstore := upsert (genId st.ctr) v' st.jstore, ctr := st.ctr + 1 })

/-! ## Event emission (`on`/`off`/`emit` of `TierListService`)

A handler is modelled by an identity (`hid`) and whether invoking it
throws; `emitRun` returns the identities invoked, in order, together
with the exception that propagates to the emitter's caller (if any).
The source's `emit` runs `listeners.forEach(listener => listener(data))`
with no `try`/`catch`. -/

structure Handler where
  hid : Nat
  throws : Bool
deriving Repr, DecidableEq

/-- Run the registered handlers in order: a throwing handler ends the
`forEach` and its exception propagates to the caller. -/
def emitRun : List Handler → List Nat × Option Nat
  | [] => ([], none)
  | h :: rest =>
    if h.throws then ([h.hid], some h.hid)
    else
      let r := emitRun rest
      (h.hid :: r.1, r.2)

/-- `on`: append the handler to the event's registration list. -/
def onEvent (reg : List (String × List Handler)) (e : String) (h : Handler) :
    List (String × List Handler) :=
  upsert e ((alookup e reg).getD [] ++ [h]) reg

/-- `off`: remove the first occurrence of the handler (`indexOf` +
`splice`); no-op when absent. -/
def offEvent (reg : List (String × List Handler)) (e : String) (h : Handler) :
    List (String × List Handler) :=
  match alookup e reg with
  | none => reg
  | some hs =>
    match removeFirst (· = h) hs with
    | none => reg
    | some r => upsert e r.2 reg

/-- `emit`: run the handlers registered for the event (none registered
means nothing runs). -/
def emitEvent (reg : List (String × List Handler)) (e : String) :
    List Nat × Option Nat :=
  match alookup e reg with
  | none => ([], none)
  | some hs => emitRun hs

/-- The ids occurring in a list of tiers in traversal order: each
tier's id followed by its items' ids. -/
def tiersAllIds (ts : List Tier) : List String :=
  (ts.map (fun t => t.id :: t.items.map (·.id))).flatten

/-- How many ids a list of tiers holds (tier ids plus item ids). -/
def tierWeight (ts : List Tier) : Nat :=
  (ts.map (fun t => 1 + t.items.length)).sum

/-- Everything of an item except its id (for structure-preservation
statements). -/
def itemShape (it : TierListItem) : String × String × Option ItemMetadata :=
  (it.type, it.content, it.metadata)

/-- Everything of a tier except the ids (label, color, order, item
shapes in order). -/
def tierShape (t : Tier) :
    String × String × Nat × List (String × String × Option ItemMetadata) :=
  (t.label, t.color, t.order, t.items.map itemShape)

/-! ## Invariant machinery for the conservation claims -/

/-- The item ids held by a list of tiers, in tier order. -/
def tiersItemIds (ts : List Tier) : List String :=
  (ts.map (fun t => t.items.map (·.id))).flatten

/-- Every stored document sits under its own id as key — true of every
store reachable through the engine, whose `save` is keyed by
`tierList.id`. -/
def WellKeyed (st : EngineState) : Prop :=
  ∀ id d, loadDoc st id = some d → d.id = id

/-- The documents found under a given key before and after: both absent,
or both present with the same item-id multiset. -/
def sameItems : Option TierList → Option TierList → Prop
  | some d₀, some d₁ => (allItemIds d₁).Perm (allItemIds d₀)
  | none, none => True
  | _, _ => False

/-- Between two engine states: no document appears or disappears, and
every document keeps its item-id multiset. -/
def ItemsPreserved (st st' : EngineState) : Prop :=
  ∀ id, sameItems (loadDoc st id) (loadDoc st' id)

/-- One successful engine call out of `moveItem` / `addTier` /
`removeTier` / `reorderTiers`, where the `reorderTiers` argument list is
required to be a permutation of the document's (duplicate-free) tier
ids — the condition §4.5 calls the contract of `reorderTiers`. -/
inductive GoodStep : EngineState → EngineState → Prop
  | move (docId itemId : String) (targetTierId : Option String) (pos : Int)
      (now : Nat) (st : EngineState)
      (h : (moveItem docId itemId targetTierId pos now st).1 = .ok ()) :
      GoodStep st (moveItem docId itemId targetTierId pos now st).2
  | add (docId label color : String) (now : Nat) (st : EngineState) (t : Tier)
      (h : (addTier docId label color now st).1 = .ok t) :
      GoodStep st (addTier docId label color now st).2
  | remove (docId tierId : String) (now : Nat) (st : EngineState)
      (h : (removeTier docId tierId now st).1 = .ok ()) :
      GoodStep st (removeTier docId tierId now st).2
  | reorder (docId : String) (tierIds : List String) (now : Nat)
      (st : EngineState) (tl : TierList)
      (hdoc : loadDoc st docId = some tl)
      (hperm : tierIds.Perm (tl.tiers.map (·.id)))
      (hnodup : (tl.tiers.map (·.id)).Nodup)
      (h : (reorderTiers docId tierIds now st).1 = .ok ()) :
      GoodStep st (reorderTiers docId tierIds now st).2

/-! ## Basic lemmas about the list helpers -/

theorem alookup_upsert (k k' : String) (v : β) (l : List (String × β)) :
    alookup k' (upsert k v l) = if k' = k then some v else alookup k' l := by
  induction l with
  | nil =>
    by_cases h : k' = k
    · simp [upsert, alookup, h]
    · simp [upsert, alookup, h, Ne.symm h]
  | cons kv rest ih =>
    obtain ⟨k₀, v₀⟩ := kv
    by_cases h0 : k₀ = k
    · subst h0
      by_cases h : k' = k₀
      · simp [upsert, alookup, h]
      · simp [upsert, alookup, h, Ne.symm h]
    · by_cases h : k' = k₀
      · subst h
        simp [upsert, alookup, h0, Ne.symm h0]
      · simp [upsert, alookup, h0, Ne.symm h, ih]

theorem insertAt_perm (a : α) (n : Nat) (l : List α) : (insertAt a n l).Perm (a :: l) := by
  induction l generalizing n with
  | nil => cases n <;> simp [insertAt]
  | cons x xs ih =>
    cases n with
    | zero => simp [insertAt]
    | succ m =>
      exact ((ih m).cons x).trans (List.Perm.swap a x xs)

theorem removeFirst_none_iff (p : α → Bool) (l : List α) :
    removeFirst p l = none ↔ ∀ x ∈ l, ¬ p x := by
  induction l with
  | nil => simp [removeFirst]
  | cons x xs ih =>
    by_cases h : p x
    · simp [removeFirst, h]
    · simp [removeFirst, h, Option.map_eq_none', ih]

theorem removeFirst_some (p : α → Bool) {l : List α} {x : α} {r : List α}
    (h : removeFirst p l = some (x, r)) : p x ∧ l.Perm (x :: r) := by
  induction l generalizing r with
  | nil => simp [removeFirst] at h
  | cons y ys ih =>
    by_cases hy : p y
    · simp [removeFirst, hy] at h
      obtain ⟨rfl, rfl⟩ := h
      exact ⟨hy, .refl _⟩
    · simp only [removeFirst, hy, if_neg, Bool.false_eq_true] at h
      cases hr : removeFirst p ys with
      | none => rw [hr] at h; simp at h
      | some a =>
        obtain ⟨x', r'⟩ := a
        rw [hr] at h
        simp only [Option.map_some', Prod.mk.injEq, Option.some.injEq] at h
        obtain ⟨rfl, rfl⟩ := h
        obtain ⟨hp, hperm⟩ := ih hr
        exact ⟨hp, (hperm.cons y).trans (List.Perm.swap x y r')⟩

theorem perm_flatten {l₁ l₂ : List (List α)} (h : l₁.Perm l₂) :
    l₁.flatten.Perm l₂.flatten := by
  induction h with
  | nil => exact .refl _
  | cons x _ ih => simpa using ih.append_left x
  | swap x y l =>
    simp only [List.flatten_cons, ← List.append_assoc]
    exact (@List.perm_append_comm _ y x).append_right l.flatten
  | trans _ _ ih₁ ih₂ => exact ih₁.trans ih₂

/-! ## C10: unknown document id -/

/-- C10: every document-scoped engine operation without its own
not-found contract (`addItem`, `updateTier`, `addTier`, `removeTier`,
`reorderTiers`, `moveItem`, `duplicateTierList`, `exportTierList`)
throws `Tier list not found` when the id matches no stored document,
and leaves the store unchanged. -/
theorem unknown_document_rejected (st : EngineState) (docId : String)
    (h : loadDoc st docId = none)
    (item : TierListItem) (tid label color : String) (u : TierUpdates)
    (targetTierId : Option String) (pos : Int) (ids : List String)
    (newTitle : Option String) (now : Nat) :
    addItem docId item now st = (.error "Tier list not found", st) ∧
    updateTier docId tid u now st = (.error "Tier list not found", st) ∧
    addTier docId label color now st = (.error "Tier list not found", st) ∧
    removeTier docId tid now st = (.error "Tier list not found", st) ∧
    reorderTiers docId ids now st = (.error "Tier list not found", st) ∧
    moveItem docId tid targetTierId pos now st = (.error "Tier list not found", st) ∧
    duplicateTierList docId newTitle now st = (.error "Tier list not found", st) ∧
    exportTierList docId st = (.error "Tier list not found", st) := by
  refine ⟨?_, ?_, ?_, ?_, ?_, ?_, ?_, ?_⟩ <;>
    simp [addItem, updateTier, addTier, removeTier, reorderTiers, moveItem,
      duplicateTierList, exportTierList, h]

/-- Witness for C10 at a concrete empty store. -/
theorem unknown_document_rejected_witness :
    addItem "d" ⟨"", "text", "", none⟩ 0 ⟨[], 0⟩
      = (.error "Tier list not found", ⟨[], 0⟩) ∧
    moveItem "d" "i" none 0 0 ⟨[], 0⟩ = (.error "Tier list not found", ⟨[], 0⟩) :=
  ⟨(unknown_document_rejected ⟨[], 0⟩ "d" rfl ⟨"", "text", "", none⟩ "t" "l" "c"
      ⟨none, none⟩ none 0 [] none 0).1,
   (unknown_document_rejected ⟨[], 0⟩ "d" rfl ⟨"", "text", "", none⟩ "t" "l" "c"
      ⟨none, none⟩ none 0 [] none 0).2.2.2.2.2.1⟩

/-! ## C3: event emission -/

/-- Counterexample to C3: with a throwing handler registered first and a
second handler registered after it, emission invokes only the first
handler — the later handler never runs — and the exception escapes to
the emitter's caller instead of being isolated. -/
theorem emit_not_isolated_counterexample :
    emitRun [⟨0, true⟩, ⟨1, false⟩] = ([0], some 0) ∧
    1 ∉ (emitRun [⟨0, true⟩, ⟨1, false⟩]).1 ∧
    (emitRun [⟨0, true⟩, ⟨1, false⟩]).2 ≠ none := by
  refine ⟨rfl, by decide, by decide⟩

/-- C3 (amended): emission is synchronous and runs the handlers in
registration order (`on` appends), but only up to the first handler
that throws: its exception ends the run and propagates to the caller of
the emitting operation; when no handler throws, every handler runs in
registration order and nothing propagates. -/
theorem emit_order_and_exception :
    (∀ hs : List Handler, (∀ g ∈ hs, g.throws = false) →
      emitRun hs = (hs.map (·.hid), none)) ∧
    (∀ (pre : List Handler) (h : Handler) (post : List Handler),
      (∀ g ∈ pre, g.throws = false) → h.throws = true →
      emitRun (pre ++ h :: post) = (pre.map (·.hid) ++ [h.hid], some h.hid)) ∧
    (∀ (reg : List (String × List Handler)) (e : String) (g : Handler),
      alookup e (onEvent reg e g) = some ((alookup e reg).getD [] ++ [g])) := by
  refine ⟨?_, ?_, ?_⟩
  · intro hs hok
    induction hs with
    | nil => rfl
    | cons g gs ih =>
      have hg : g.throws = false := hok g (by simp)
      simp [emitRun, hg, ih (fun x hx => hok x (by simp [hx]))]
  · intro pre h post hpre hh
    induction pre with
    | nil => simp [emitRun, hh]
    | cons g gs ih =>
      have hg : g.throws = false := hpre g (by simp)
      simp [emitRun, hg, ih (fun x hx => hpre x (by simp [hx]))]
  · intro reg e g
    simp [onEvent, alookup_upsert]

/-- Witness for C3 (amended): a throw-free run invokes both handlers in
registration order, and a run hitting a throwing handler stops there. -/
theorem emit_order_and_exception_witness :
    emitRun [⟨5, false⟩, ⟨7, false⟩] = ([5, 7], none) ∧
    emitRun [⟨5, false⟩, ⟨9, true⟩, ⟨7, false⟩] = ([5, 9], some 9) :=
  ⟨emit_order_and_exception.1 [⟨5, false⟩, ⟨7, false⟩] (by decide),
   emit_order_and_exception.2.1 [⟨5, false⟩] ⟨9, true⟩ [⟨7, false⟩] (by decide) rfl⟩

/-! ## C6: capacity check on save -/

/-- C6: when the serialised byte size of the whole blob after the
mutation exceeds the configured capacity (which defaults to 5 MiB when
unset or zero), `save` fails with the `CapacityExceeded` error and
writes nothing, so every subsequent `load` sees the pre-write state. -/
theorem providerSave_capacityExceeded (maxSize now : Nat) (tl : TierList)
    (st : ProviderState)
    (h : (serializeData (savePayload now tl st)).utf8ByteSize > maxSize) :
    providerSave maxSize now tl st
      = (.error (capacityMsg (serializeData (savePayload now tl st)).utf8ByteSize maxSize), st)
    ∧ (∀ id, providerLoad (providerSave maxSize now tl st).2 id = providerLoad st id)
    ∧ effMaxSize none = 5 * 1024 * 1024 := by
  have h1 : providerSave maxSize now tl st
      = (.error (capacityMsg (serializeData (savePayload now tl st)).utf8ByteSize maxSize), st) := by
    simp [providerSave, saveAllData, h]
  refine ⟨h1, ?_, rfl⟩
  intro id
  rw [congrArg Prod.snd h1]

set_option maxRecDepth 40000 in
/-- Witness for C6: a one-byte capacity rejects the write of a small
document and leaves the empty medium (hence every `load`) untouched. -/
theorem providerSave_capacityExceeded_witness :
    providerSave 1 7 ⟨"d", "t", none, [], [], ⟨0, 0, 1, none⟩, ⟨"default", "standard", true⟩⟩
        ⟨none, none⟩
      = (.error (capacityMsg (serializeData (savePayload 7
          ⟨"d", "t", none, [], [], ⟨0, 0, 1, none⟩, ⟨"default", "standard", true⟩⟩
          ⟨none, none⟩)).utf8ByteSize 1), ⟨none, none⟩)
    ∧ providerLoad (providerSave 1 7
          ⟨"d", "t", none, [], [], ⟨0, 0, 1, none⟩, ⟨"default", "standard", true⟩⟩
          ⟨none, none⟩).2 "d" = providerLoad ⟨none, none⟩ "d" :=
  ⟨(providerSave_capacityExceeded 1 7 _ ⟨none, none⟩ (by decide)).1,
   (providerSave_capacityExceeded 1 7 _ ⟨none, none⟩ (by decide)).2.1 "d"⟩

/-! ## Item removal and insertion lemmas -/

theorem allItemIds_eq (tl : TierList) :
    allItemIds tl = tiersItemIds tl.tiers ++ tl.unrankedItems.map (·.id) := rfl

theorem removeFromTiers_none_iff (ts : List Tier) (itemId : String) :
    findAndRemoveItem.removeFromTiers ts itemId = none ↔ itemId ∉ tiersItemIds ts := by
  induction ts with
  | nil => simp [findAndRemoveItem.removeFromTiers, tiersItemIds]
  | cons t rest ih =>
    simp only [findAndRemoveItem.removeFromTiers]
    cases hr : removeFirst (fun i => i.id = itemId) t.items with
    | some a =>
      obtain ⟨x, litems⟩ := a
      obtain ⟨hid, hperm⟩ := removeFirst_some _ hr
      simp only [decide_eq_true_eq] at hid
      have hmem : itemId ∈ tiersItemIds (t :: rest) := by
        have hx : x ∈ t.items := hperm.mem_iff.mpr (by simp)
        simp only [tiersItemIds, List.map_cons, List.flatten_cons, List.mem_append]
        exact Or.inl (List.mem_map.mpr ⟨x, hx, hid⟩)
      simp [hmem]
    | none =>
      have hnone := (removeFirst_none_iff _ _).mp hr
      simp only [decide_eq_true_eq] at hnone
      have htids : itemId ∉ t.items.map (·.id) := by
        intro hmem
        obtain ⟨x, hx, hxid⟩ := List.mem_map.mp hmem
        exact hnone x hx hxid
      simp only [Option.map_eq_none', ih, tiersItemIds, List.map_cons,
        List.flatten_cons, List.mem_append]
      constructor
      · intro h hc
        rcases hc with hc | hc
        · exact htids hc
        · exact h hc
      · intro h hc
        exact h (Or.inr hc)

theorem removeFromTiers_some (ts : List Tier) (itemId : String)
    {it : TierListItem} {ts' : List Tier}
    (h : findAndRemoveItem.removeFromTiers ts itemId = some (it, ts')) :
    it.id = itemId ∧ (tiersItemIds ts).Perm (itemId :: tiersItemIds ts')
      ∧ ts'.map (·.id) = ts.map (·.id) := by
  induction ts generalizing ts' with
  | nil => simp [findAndRemoveItem.removeFromTiers] at h
  | cons t rest ih =>
    simp only [findAndRemoveItem.removeFromTiers] at h
    cases hr : removeFirst (fun i => i.id = itemId) t.items with
    | some a =>
      obtain ⟨x, litems⟩ := a
      rw [hr] at h
      simp only [Option.some.injEq, Prod.mk.injEq] at h
      obtain ⟨rfl, rfl⟩ := h
      obtain ⟨hid, hperm⟩ := removeFirst_some _ hr
      simp only [decide_eq_true_eq] at hid
      refine ⟨hid, ?_, by simp⟩
      simp only [tiersItemIds, List.map_cons, List.flatten_cons]
      have h1 : (t.items.map (·.id)).Perm (itemId :: litems.map (·.id)) := by
        have := hperm.map (·.id)
        simpa [hid] using this
      exact h1.append_right _
    | none =>
      rw [hr] at h
      simp only [Option.map_eq_some'] at h
      obtain ⟨⟨y, rts⟩, hrec, heq⟩ := h
      simp only [Prod.mk.injEq] at heq
      obtain ⟨rfl, rfl⟩ := heq
      obtain ⟨hid, hperm, hids⟩ := ih hrec
      refine ⟨hid, ?_, by simp [hids]⟩
      simp only [tiersItemIds, List.map_cons, List.flatten_cons]
      exact (hperm.append_left _).trans List.perm_middle

theorem findAndRemoveItem_none_iff (tl : TierList) (itemId : String) :
    findAndRemoveItem tl itemId = none ↔ itemId ∉ allItemIds tl := by
  unfold findAndRemoveItem
  cases hu : removeFirst (fun i => i.id = itemId) tl.unrankedItems with
  | some a =>
    obtain ⟨x, rest⟩ := a
    obtain ⟨hid, hperm⟩ := removeFirst_some _ hu
    simp only [decide_eq_true_eq] at hid
    have hmem : itemId ∈ allItemIds tl := by
      have hx : x ∈ tl.unrankedItems := hperm.mem_iff.mpr (by simp)
      rw [allItemIds_eq]
      exact List.mem_append.mpr (Or.inr (List.mem_map.mpr ⟨x, hx, hid⟩))
    simp [hmem]
  | none =>
    have hnone := (removeFirst_none_iff _ _).mp hu
    simp only [decide_eq_true_eq] at hnone
    have huids : itemId ∉ tl.unrankedItems.map (·.id) := by
      intro hmem
      obtain ⟨x, hx, hxid⟩ := List.mem_map.mp hmem
      exact hnone x hx hxid
    cases ht : findAndRemoveItem.removeFromTiers tl.tiers itemId with
    | some a =>
      obtain ⟨x, ts'⟩ := a
      obtain ⟨hid, hperm, _⟩ := removeFromTiers_some _ _ ht
      have hmem : itemId ∈ allItemIds tl := by
        rw [allItemIds_eq]
        exact List.mem_append.mpr (Or.inl (hperm.mem_iff.mpr (by simp)))
      simp [hmem]
    | none =>
      have htids := (removeFromTiers_none_iff _ _).mp ht
      simp only [allItemIds_eq, List.mem_append]
      simp
      exact ⟨htids, hnone⟩

theorem findAndRemoveItem_some (tl : TierList) (itemId : String)
    {it : TierListItem} {tl1 : TierList}
    (h : findAndRemoveItem tl itemId = some (it, tl1)) :
    it.id = itemId ∧ (allItemIds tl).Perm (itemId :: allItemIds tl1)
      ∧ tl1.id = tl.id ∧ tl1.tiers.map (·.id) = tl.tiers.map (·.id) := by
  unfold findAndRemoveItem at h
  cases hu : removeFirst (fun i => i.id = itemId) tl.unrankedItems with
  | some a =>
    obtain ⟨x, rest⟩ := a
    rw [hu] at h
    simp only [Option.some.injEq, Prod.mk.injEq] at h
    obtain ⟨rfl, rfl⟩ := h
    obtain ⟨hid, hperm⟩ := removeFirst_some _ hu
    simp only [decide_eq_true_eq] at hid
    refine ⟨hid, ?_, rfl, rfl⟩
    simp only [allItemIds_eq]
    have h1 : (tl.unrankedItems.map (·.id)).Perm (itemId :: rest.map (·.id)) := by
      have := hperm.map (·.id)
      simpa [hid] using this
    exact ((h1.append_left _).trans List.perm_middle)
  | none =>
    rw [hu] at h
    cases ht : findAndRemoveItem.removeFromTiers tl.tiers itemId with
    | some a =>
      obtain ⟨x, ts'⟩ := a
      rw [ht] at h
      simp only [Option.some.injEq, Prod.mk.injEq] at h
      obtain ⟨rfl, rfl⟩ := h
      obtain ⟨hid, hperm, hids⟩ := removeFromTiers_some _ _ ht
      refine ⟨hid, ?_, rfl, by simp [hids]⟩
      simp only [allItemIds_eq]
      exact hperm.append_right _
    | none => rw [ht] at h; simp at h

theorem insertIntoTier_none_iff (tid : String) (item : TierListItem) (pos : Int)
    (ts : List Tier) : insertIntoTier tid item pos ts = none ↔ tid ∉ ts.map (·.id) := by
  induction ts with
  | nil => simp [insertIntoTier]
  | cons t rest ih =>
    by_cases h : t.id = tid
    · simp [insertIntoTier, h]
    · simp only [insertIntoTier, h, if_false, Option.map_eq_none', ih,
        List.map_cons, List.mem_cons]
      constructor
      · intro hn hc
        rcases hc with hc | hc
        · exact h hc.symm
        · exact hn hc
      · intro hn hc
        exact hn (Or.inr hc)

theorem insertIntoTier_some (tid : String) (item : TierListItem) (pos : Int)
    {ts ts' : List Tier} (h : insertIntoTier tid item pos ts = some ts') :
    (tiersItemIds ts').Perm (item.id :: tiersItemIds ts)
      ∧ ts'.map (·.id) = ts.map (·.id) := by
  induction ts generalizing ts' with
  | nil => simp [insertIntoTier] at h
  | cons t rest ih =>
    by_cases hid : t.id = tid
    · simp only [insertIntoTier, hid, if_true, Option.some.injEq] at h
      subst h
      constructor
      · simp only [tiersItemIds, List.map_cons, List.flatten_cons]
        have h1 : ((insertAt item (spliceIdx t.items.length pos) t.items).map (·.id)).Perm
            (item.id :: t.items.map (·.id)) := by
          simpa using (insertAt_perm item (spliceIdx t.items.length pos) t.items).map (·.id)
        exact h1.append_right _
      · simp [hid]
    · simp only [insertIntoTier, hid, if_false, Option.map_eq_some'] at h
      obtain ⟨rts, hrec, rfl⟩ := h
      obtain ⟨hperm, hids⟩ := ih hrec
      constructor
      · simp only [tiersItemIds, List.map_cons, List.flatten_cons]
        exact ((hperm.append_left _).trans (List.perm_middle)).trans
          (by simp [tiersItemIds])
      · simp [hids]

theorem loadDoc_updateTierList (now : Nat) (d : TierList) (st : EngineState)
    (id : String) :
    loadDoc (updateTierList now d st) id
      = if id = d.id then
          some { d with metadata :=
            { d.metadata with updatedAt := now, version := d.metadata.version + 1 } }
        else loadDoc st id := by
  simp [updateTierList, loadDoc, alookup_upsert]

/-! ## C7: moveItem -/

/-- Counterexample to C7: the insertion position is NOT clamped to
`[0, length]`.  Moving `i1` of the pool `[i1, i2, i3]` to the unranked
pool at position `-1` yields `[i2, i1, i3]` — JavaScript `splice`
counts a negative position back from the end of the pool-after-removal
(`[i2, i3]`, index `2 - 1 = 1`) — whereas clamping `-1` to `[0, length]`
would insert at `0` and yield `[i1, i2, i3]`. -/
theorem moveItem_negative_position_counterexample :
    (moveItem "d" "i1" none (-1) 9
        ⟨[("d", ⟨"d", "T", none, [],
          [⟨"i1", "text", "", none⟩, ⟨"i2", "text", "", none⟩, ⟨"i3", "text", "", none⟩],
          ⟨0, 0, 1, none⟩, ⟨"default", "standard", true⟩⟩)], 0⟩).1 = .ok () ∧
    (loadDoc (moveItem "d" "i1" none (-1) 9
        ⟨[("d", ⟨"d", "T", none, [],
          [⟨"i1", "text", "", none⟩, ⟨"i2", "text", "", none⟩, ⟨"i3", "text", "", none⟩],
          ⟨0, 0, 1, none⟩, ⟨"default", "standard", true⟩⟩)], 0⟩).2 "d").map
      (fun d => d.unrankedItems.map (·.id)) = some ["i2", "i1", "i3"] ∧
    some ["i2", "i1", "i3"] ≠ some ["i1", "i2", "i3"] := by
  refine ⟨rfl, rfl, by decide⟩

/-- C7 (amended): `moveItem` removes the item from its current location
(unranked pool first, then tiers in order); it fails with
`Item not found` (store unchanged) when the item id occurs nowhere, and
with `Target tier not found` (store unchanged) when a non-null,
non-empty `targetTierId` matches no tier while the item exists.  On
success the item is inserted at the JavaScript-`splice` resolution of
`position` (a negative position counts back from the end of the target
sequence, clamped below at 0; a position beyond the length appends), so
for every integer position the item ends up inserted exactly once: the
document's item-id multiset is preserved. -/
theorem moveItem_spec (st : EngineState) (docId itemId : String)
    (targetTierId : Option String) (pos : Int) (now : Nat) (tl : TierList)
    (hdoc : loadDoc st docId = some tl) :
    (itemId ∉ allItemIds tl →
      moveItem docId itemId targetTierId pos now st = (.error "Item not found", st)) ∧
    (∀ tid, targetTierId = some tid → tid ≠ "" → tid ∉ tl.tiers.map (·.id) →
      itemId ∈ allItemIds tl →
      moveItem docId itemId targetTierId pos now st
        = (.error "Target tier not found", st)) ∧
    (∀ it tl1, findAndRemoveItem tl itemId = some (it, tl1) →
      (targetTierId = none ∨ targetTierId = some "" →
        ∃ d', (moveItem docId itemId targetTierId pos now st).1 = .ok ()
          ∧ loadDoc (moveItem docId itemId targetTierId pos now st).2 tl.id = some d'
          ∧ d'.unrankedItems
              = insertAt it (spliceIdx tl1.unrankedItems.length pos) tl1.unrankedItems
          ∧ (allItemIds d').Perm (allItemIds tl)) ∧
      (∀ tid, targetTierId = some tid → tid ≠ "" → tid ∈ tl.tiers.map (·.id) →
        ∃ d', (moveItem docId itemId targetTierId pos now st).1 = .ok ()
          ∧ loadDoc (moveItem docId itemId targetTierId pos now st).2 tl.id = some d'
          ∧ (allItemIds d').Perm (allItemIds tl))) := by
  refine ⟨?_, ?_, ?_⟩
  · intro hmem
    have hfr : findAndRemoveItem tl itemId = none :=
      (findAndRemoveItem_none_iff tl itemId).mpr hmem
    simp [moveItem, hdoc, hfr]
  · intro tid htid hne hnotin hmem
    subst htid
    cases hfr : findAndRemoveItem tl itemId with
    | none => exact absurd hmem (fun hm =>
        ((findAndRemoveItem_none_iff tl itemId).mp hfr) hm)
    | some a =>
      obtain ⟨it, tl1⟩ := a
      obtain ⟨_, _, _, hids⟩ := findAndRemoveItem_some tl itemId hfr
      have hnone : insertIntoTier tid it pos tl1.tiers = none :=
        (insertIntoTier_none_iff tid it pos tl1.tiers).mpr (by rw [hids]; exact hnotin)
      simp [moveItem, hdoc, hfr, hne, hnone]
  · intro it tl1 hfr
    obtain ⟨hid, hperm, hdocid, hids⟩ := findAndRemoveItem_some tl itemId hfr
    constructor
    · intro htt
      have hres : moveItem docId itemId targetTierId pos now st
          = (.ok (), updateTierList now
              { tl1 with unrankedItems :=
                (insertAt it (spliceIdx tl1.unrankedItems.length pos)
                  tl1.unrankedItems) }
              st) := by
        rcases htt with rfl | rfl <;> simp [moveItem, hdoc, hfr]
      refine ⟨{ tl1 with
          unrankedItems := (insertAt it (spliceIdx tl1.unrankedItems.length pos)
            tl1.unrankedItems),
          metadata :=
            ({ tl1.metadata with updatedAt := now, version := tl1.metadata.version + 1 }) },
        by rw [hres], ?_, rfl, ?_⟩
      · rw [hres, loadDoc_updateTierList]
        simp [hdocid]
      · refine List.Perm.trans ?_ hperm.symm
        simp only [allItemIds_eq]
        have h1 : ((insertAt it (spliceIdx tl1.unrankedItems.length pos)
            tl1.unrankedItems).map (·.id)).Perm (itemId :: tl1.unrankedItems.map (·.id)) := by
          simpa [hid] using
            (insertAt_perm it (spliceIdx tl1.unrankedItems.length pos)
              tl1.unrankedItems).map (·.id)
        exact (h1.append_left _).trans List.perm_middle
    · intro tid htid hne hin
      subst htid
      have hne2 : insertIntoTier tid it pos tl1.tiers ≠ none := by
        rw [Ne, insertIntoTier_none_iff, hids]
        simpa using hin
      obtain ⟨ts', hts'⟩ := Option.ne_none_iff_exists'.mp hne2
      obtain ⟨hpermT, hidsT⟩ := insertIntoTier_some tid it pos hts'
      have hres : moveItem docId itemId (some tid) pos now st
          = (.ok (), updateTierList now { tl1 with tiers := ts' } st) := by
        simp [moveItem, hdoc, hfr, hne, hts']
      refine ⟨{ tl1 with
          tiers := ts',
          metadata :=
            ({ tl1.metadata with updatedAt := now, version := tl1.metadata.version + 1 }) },
        by rw [hres], ?_, ?_⟩
      · rw [hres, loadDoc_updateTierList]
        simp [hdocid]
      · refine List.Perm.trans ?_ hperm.symm
        simp only [allItemIds_eq]
        have h1 : (tiersItemIds ts').Perm (itemId :: tiersItemIds tl1.tiers) := by
          simpa [hid] using hpermT
        exact h1.append_right _

/-- Witness for C7 (amended): moving `i1` out of the pool `[i1, i2]` to
position `5` (beyond the length) succeeds, appends it after `i2`, and
preserves the item-id multiset. -/
theorem moveItem_spec_witness :
    ∃ d', (moveItem "d" "i1" none 5 3
        ⟨[("d", ⟨"d", "T", none, [],
          [⟨"i1", "text", "", none⟩, ⟨"i2", "text", "", none⟩],
          ⟨0, 0, 1, none⟩, ⟨"default", "standard", true⟩⟩)], 0⟩).1 = .ok ()
      ∧ loadDoc (moveItem "d" "i1" none 5 3
          ⟨[("d", ⟨"d", "T", none, [],
            [⟨"i1", "text", "", none⟩, ⟨"i2", "text", "", none⟩],
            ⟨0, 0, 1, none⟩, ⟨"default", "standard", true⟩⟩)], 0⟩).2 "d" = some d'
      ∧ d'.unrankedItems
          = insertAt ⟨"i1", "text", "", none⟩ (spliceIdx 1 5) [⟨"i2", "text", "", none⟩]
      ∧ (allItemIds d').Perm (allItemIds ⟨"d", "T", none, [],
          [⟨"i1", "text", "", none⟩, ⟨"i2", "text", "", none⟩],
          ⟨0, 0, 1, none⟩, ⟨"default", "standard", true⟩⟩) :=
  ((moveItem_spec
      ⟨[("d", ⟨"d", "T", none, [],
        [⟨"i1", "text", "", none⟩, ⟨"i2", "text", "", none⟩],
        ⟨0, 0, 1, none⟩, ⟨"default", "standard", true⟩⟩)], 0⟩
      "d" "i1" none 5 3
      ⟨"d", "T", none, [],
        [⟨"i1", "text", "", none⟩, ⟨"i2", "text", "", none⟩],
        ⟨0, 0, 1, none⟩, ⟨"default", "standard", true⟩⟩
      rfl).2.2
    ⟨"i1", "text", "", none⟩
    ⟨"d", "T", none, [], [⟨"i2", "text", "", none⟩],
      ⟨0, 0, 1, none⟩, ⟨"default", "standard", true⟩⟩
    rfl).1 (Or.inl rfl)

/-! ## C8: removeTier -/

theorem renumber_fields (i : Nat) (ts : List Tier) :
    (renumber i ts).map (fun t => (t.id, t.label, t.color, t.items))
      = ts.map (fun t => (t.id, t.label, t.color, t.items)) := by
  induction ts generalizing i with
  | nil => rfl
  | cons t rest ih => simp [renumber, ih]

theorem renumber_orders (i : Nat) (ts : List Tier) :
    (renumber i ts).map (·.order) = List.range' i ts.length := by
  induction ts generalizing i with
  | nil => rfl
  | cons t rest ih => simp [renumber, List.range', ih]

theorem renumber_itemIds (i : Nat) (ts : List Tier) :
    tiersItemIds (renumber i ts) = tiersItemIds ts := by
  induction ts generalizing i with
  | nil => rfl
  | cons t rest ih =>
    simp only [renumber, tiersItemIds, List.map_cons, List.flatten_cons]
    simpa [tiersItemIds] using ih (i + 1)

/-- C8: `removeTier` fails with `Tier not found` (store unchanged) when
the id matches no tier; otherwise it appends the removed tier's items,
in their order, after the existing unranked items, drops the tier
(everything else about the remaining tiers preserved, in order),
renumbers the remaining tiers' `order` to `0..n-1` matching sequence
position, and preserves the total item count (the item-id multiset). -/
theorem removeTier_spec (st : EngineState) (docId tierId : String) (now : Nat)
    (tl : TierList) (hdoc : loadDoc st docId = some tl) :
    (tierId ∉ tl.tiers.map (·.id) →
      removeTier docId tierId now st = (.error "Tier not found", st)) ∧
    (∀ tier rest, removeFirst (fun t => t.id = tierId) tl.tiers = some (tier, rest) →
      ∃ d', (removeTier docId tierId now st).1 = .ok ()
        ∧ loadDoc (removeTier docId tierId now st).2 tl.id = some d'
        ∧ d'.unrankedItems = tl.unrankedItems ++ tier.items
        ∧ d'.tiers.map (fun t => (t.id, t.label, t.color, t.items))
            = rest.map (fun t => (t.id, t.label, t.color, t.items))
        ∧ d'.tiers.map (·.order) = List.range rest.length
        ∧ (allItemIds d').Perm (allItemIds tl)
        ∧ (allItemIds d').length = (allItemIds tl).length) := by
  constructor
  · intro hni
    have hn : removeFirst (fun t => t.id = tierId) tl.tiers = none := by
      rw [removeFirst_none_iff]
      intro t ht
      simp only [decide_eq_true_eq]
      intro he
      exact hni (List.mem_map.mpr ⟨t, ht, he⟩)
    simp [removeTier, hdoc, hn]
  · intro tier rest hrf
    obtain ⟨hpt, hperm⟩ := removeFirst_some _ hrf
    have hres : removeTier docId tierId now st
        = (.ok (), updateTierList now
            { tl with
              unrankedItems := tl.unrankedItems ++ tier.items,
              tiers := renumber 0 rest } st) := by
      simp [removeTier, hdoc, hrf]
    have hpermIds : (allItemIds { tl with
        unrankedItems := tl.unrankedItems ++ tier.items,
        tiers := renumber 0 rest }).Perm (allItemIds tl) := by
      simp only [allItemIds_eq, renumber_itemIds, List.map_append]
      have h2 : (tiersItemIds tl.tiers).Perm
          (tier.items.map (·.id) ++ tiersItemIds rest) := by
        have := perm_flatten ((hperm.map
          (fun t => t.items.map (·.id))))
        simpa [tiersItemIds] using this
      refine List.perm_iff_count.mpr fun a => ?_
      have hc := h2.count_eq a
      simp only [List.count_append] at hc ⊢
      omega
    refine ⟨{ tl with
        unrankedItems := tl.unrankedItems ++ tier.items,
        tiers := renumber 0 rest,
        metadata :=
          ({ tl.metadata with updatedAt := now, version := tl.metadata.version + 1 }) },
      by rw [hres], ?_, rfl, ?_, ?_, ?_, ?_⟩
    · rw [hres, loadDoc_updateTierList]
      simp
    · exact renumber_fields 0 rest
    · rw [renumber_orders, List.range_eq_range']
    · exact hpermIds
    · exact hpermIds.length_eq

/-- Witness for C8: removing tier `t1` (holding `a`) from a two-tier
document moves `a` to the end of the unranked pool and renumbers `t2`
to order `0`. -/
theorem removeTier_spec_witness :
    ∃ d', (removeTier "d" "t1" 4
        ⟨[("d", ⟨"d", "T", none,
          [⟨"t1", "S", "red", [⟨"a", "text", "", none⟩], 0⟩,
            ⟨"t2", "A", "blue", [], 1⟩],
          [⟨"u", "text", "", none⟩],
          ⟨0, 0, 1, none⟩, ⟨"default", "standard", true⟩⟩)], 0⟩).1 = .ok ()
      ∧ loadDoc (removeTier "d" "t1" 4
          ⟨[("d", ⟨"d", "T", none,
            [⟨"t1", "S", "red", [⟨"a", "text", "", none⟩], 0⟩,
              ⟨"t2", "A", "blue", [], 1⟩],
            [⟨"u", "text", "", none⟩],
            ⟨0, 0, 1, none⟩, ⟨"default", "standard", true⟩⟩)], 0⟩).2 "d" = some d'
      ∧ d'.unrankedItems = [⟨"u", "text", "", none⟩] ++ [⟨"a", "text", "", none⟩]
      ∧ d'.tiers.map (fun t => (t.id, t.label, t.color, t.items))
          = ([⟨"t2", "A", "blue", [], 1⟩] : List Tier).map
              (fun t => (t.id, t.label, t.color, t.items))
      ∧ d'.tiers.map (·.order) = List.range 1
      ∧ (allItemIds d').Perm (allItemIds ⟨"d", "T", none,
          [⟨"t1", "S", "red", [⟨"a", "text", "", none⟩], 0⟩,
            ⟨"t2", "A", "blue", [], 1⟩],
          [⟨"u", "text", "", none⟩],
          ⟨0, 0, 1, none⟩, ⟨"default", "standard", true⟩⟩)
      ∧ (allItemIds d').length = (allItemIds ⟨"d", "T", none,
          [⟨"t1", "S", "red", [⟨"a", "text", "", none⟩], 0⟩,
            ⟨"t2", "A", "blue", [], 1⟩],
          [⟨"u", "text", "", none⟩],
          ⟨0, 0, 1, none⟩, ⟨"default", "standard", true⟩⟩).length :=
  (removeTier_spec
    ⟨[("d", ⟨"d", "T", none,
      [⟨"t1", "S", "red", [⟨"a", "text", "", none⟩], 0⟩,
        ⟨"t2", "A", "blue", [], 1⟩],
      [⟨"u", "text", "", none⟩],
      ⟨0, 0, 1, none⟩, ⟨"default", "standard", true⟩⟩)], 0⟩
    "d" "t1" 4
    ⟨"d", "T", none,
      [⟨"t1", "S", "red", [⟨"a", "text", "", none⟩], 0⟩,
        ⟨"t2", "A", "blue", [], 1⟩],
      [⟨"u", "text", "", none⟩],
      ⟨0, 0, 1, none⟩, ⟨"default", "standard", true⟩⟩
    rfl).2
    ⟨"t1", "S", "red", [⟨"a", "text", "", none⟩], 0⟩
    [⟨"t2", "A", "blue", [], 1⟩] rfl

/-! ## C2: reorderTiers -/

theorem tierMapGet_none_iff (tiers : List Tier) (id : String) :
    tierMapGet tiers id = none ↔ id ∉ tiers.map (·.id) := by
  simp only [tierMapGet, List.find?_eq_none, List.mem_reverse, List.mem_map,
    decide_eq_true_eq]
  constructor
  · rintro h ⟨t, ht, rfl⟩
    exact h t ht rfl
  · rintro h t ht rfl
    exact h ⟨t, ht, rfl⟩

theorem tierMapGet_id {tiers : List Tier} {id : String} {t : Tier}
    (h : tierMapGet tiers id = some t) : t.id = id := by
  have := List.find?_some h
  simpa using this

theorem pickTiers_error (tiers : List Tier) (b : String) (post : List String) :
    ∀ (pre : List String) (i : Nat), (∀ p ∈ pre, p ∈ tiers.map (·.id)) →
    b ∉ tiers.map (·.id) →
    pickTiers tiers i (pre ++ b :: post) = .error ("Tier with id " ++ b ++ " not found") := by
  intro pre
  induction pre with
  | nil =>
    intro i _ hb
    have hn : tierMapGet tiers b = none := (tierMapGet_none_iff tiers b).mpr hb
    simp [pickTiers, hn]
  | cons p ps ih =>
    intro i hpre hb
    have hp : p ∈ tiers.map (·.id) := hpre p (by simp)
    have hsome : tierMapGet tiers p ≠ none := by
      rw [Ne, tierMapGet_none_iff]
      simpa using hp
    obtain ⟨t, ht⟩ := Option.ne_none_iff_exists'.mp hsome
    have hrec := ih (i + 1) (fun x hx => hpre x (by simp [hx])) hb
    simp [pickTiers, ht, hrec, Except.map]

theorem pickTiers_ok (tiers : List Tier) :
    ∀ (ids : List String) (i : Nat), (∀ x ∈ ids, x ∈ tiers.map (·.id)) →
    ∃ ts', pickTiers tiers i ids = .ok ts' ∧ ts'.map (·.id) = ids
      ∧ ts'.map (·.items)
          = ids.map (fun x => ((tierMapGet tiers x).map (·.items)).getD []) := by
  intro ids
  induction ids with
  | nil => exact fun i _ => ⟨[], rfl, rfl, rfl⟩
  | cons x rest ih =>
    intro i hall
    have hx : x ∈ tiers.map (·.id) := hall x (by simp)
    have hsome : tierMapGet tiers x ≠ none := by
      rw [Ne, tierMapGet_none_iff]
      simpa using hx
    obtain ⟨t, ht⟩ := Option.ne_none_iff_exists'.mp hsome
    obtain ⟨ts', hts', hids, hitems⟩ := ih (i + 1) (fun y hy => hall y (by simp [hy]))
    refine ⟨{ t with order := i } :: ts', ?_, ?_, ?_⟩
    · simp [pickTiers, ht, hts', Except.map]
    · simp [hids, tierMapGet_id ht]
    · simp [hitems, ht]

/-- Counterexample to C2: `reorderTiers` performs no permutation/length
check.  On a document with tiers `[t1, t2]`, the call with the shorter
valid-id list `["t1"]` succeeds (the claim demands an `InvalidArgument`
failure with the document unchanged) and silently rewrites the persisted
tier sequence to just `[t1]`, dropping `t2`. -/
theorem reorderTiers_no_permutation_check_counterexample :
    (reorderTiers "d" ["t1"] 5
        ⟨[("d", ⟨"d", "T", none,
          [⟨"t1", "S", "red", [], 0⟩,
            ⟨"t2", "A", "blue", [⟨"i2", "text", "", none⟩], 1⟩],
          [], ⟨0, 0, 1, none⟩, ⟨"default", "standard", true⟩⟩)], 0⟩).1 = .ok () ∧
    (loadDoc (reorderTiers "d" ["t1"] 5
        ⟨[("d", ⟨"d", "T", none,
          [⟨"t1", "S", "red", [], 0⟩,
            ⟨"t2", "A", "blue", [⟨"i2", "text", "", none⟩], 1⟩],
          [], ⟨0, 0, 1, none⟩, ⟨"default", "standard", true⟩⟩)], 0⟩).2 "d").map
      (·.tiers.map (·.id)) = some ["t1"] := by
  exact ⟨rfl, rfl⟩

/-- C2 (amended): `reorderTiers` fails — with the tier-not-found error
for the first offending id, leaving the persisted document unchanged —
exactly when `orderedTierIds` contains an id matching no tier.  A list
of valid ids that is not a permutation of the tier ids (in particular a
shorter list, or one with duplicates) is accepted: the tier sequence is
rewritten to exactly the listed tiers in the given order, silently
dropping unmentioned tiers. -/
theorem reorderTiers_spec (st : EngineState) (docId : String)
    (tierIds : List String) (now : Nat) (tl : TierList)
    (hdoc : loadDoc st docId = some tl) :
    (∀ pre b post, tierIds = pre ++ b :: post →
      (∀ p ∈ pre, p ∈ tl.tiers.map (·.id)) → b ∉ tl.tiers.map (·.id) →
      reorderTiers docId tierIds now st
        = (.error ("Tier with id " ++ b ++ " not found"), st)) ∧
    ((∀ x ∈ tierIds, x ∈ tl.tiers.map (·.id)) →
      ∃ ts', reorderTiers docId tierIds now st
          = (.ok (), updateTierList now { tl with tiers := ts' } st)
        ∧ ts'.map (·.id) = tierIds) := by
  constructor
  · intro pre b post hsplit hpre hb
    subst hsplit
    have := pickTiers_error tl.tiers b post pre 0 hpre hb
    simp [reorderTiers, hdoc, this]
  · intro hall
    obtain ⟨ts', hts', hids, _⟩ := pickTiers_ok tl.tiers tierIds 0 hall
    exact ⟨ts', by simp [reorderTiers, hdoc, hts'], hids⟩

/-- Witness for C2 (amended): an unknown id in the list makes
`reorderTiers` fail and leaves the store untouched, while the
not-length-checked valid list `["t2", "t1"]` is accepted. -/
theorem reorderTiers_spec_witness :
    reorderTiers "d" ["tX"] 5
        ⟨[("d", ⟨"d", "T", none,
          [⟨"t1", "S", "red", [], 0⟩, ⟨"t2", "A", "blue", [], 1⟩],
          [], ⟨0, 0, 1, none⟩, ⟨"default", "standard", true⟩⟩)], 0⟩
      = (.error ("Tier with id " ++ "tX" ++ " not found"),
        ⟨[("d", ⟨"d", "T", none,
          [⟨"t1", "S", "red", [], 0⟩, ⟨"t2", "A", "blue", [], 1⟩],
          [], ⟨0, 0, 1, none⟩, ⟨"default", "standard", true⟩⟩)], 0⟩) ∧
    ∃ ts', reorderTiers "d" ["t2", "t1"] 5
        ⟨[("d", ⟨"d", "T", none,
          [⟨"t1", "S", "red", [], 0⟩, ⟨"t2", "A", "blue", [], 1⟩],
          [], ⟨0, 0, 1, none⟩, ⟨"default", "standard", true⟩⟩)], 0⟩
      = (.ok (), updateTierList 5
          { (⟨"d", "T", none,
            [⟨"t1", "S", "red", [], 0⟩, ⟨"t2", "A", "blue", [], 1⟩],
            [], ⟨0, 0, 1, none⟩, ⟨"default", "standard", true⟩⟩ : TierList) with
            tiers := ts' }
          ⟨[("d", ⟨"d", "T", none,
            [⟨"t1", "S", "red", [], 0⟩, ⟨"t2", "A", "blue", [], 1⟩],
            [], ⟨0, 0, 1, none⟩, ⟨"default", "standard", true⟩⟩)], 0⟩)
      ∧ ts'.map (·.id) = ["t2", "t1"] :=
  ⟨(reorderTiers_spec
      ⟨[("d", ⟨"d", "T", none,
        [⟨"t1", "S", "red", [], 0⟩, ⟨"t2", "A", "blue", [], 1⟩],
        [], ⟨0, 0, 1, none⟩, ⟨"default", "standard", true⟩⟩)], 0⟩
      "d" ["tX"] 5
      ⟨"d", "T", none,
        [⟨"t1", "S", "red", [], 0⟩, ⟨"t2", "A", "blue", [], 1⟩],
        [], ⟨0, 0, 1, none⟩, ⟨"default", "standard", true⟩⟩
      rfl).1 [] "tX" [] rfl (by simp) (by decide),
   (reorderTiers_spec
      ⟨[("d", ⟨"d", "T", none,
        [⟨"t1", "S", "red", [], 0⟩, ⟨"t2", "A", "blue", [], 1⟩],
        [], ⟨0, 0, 1, none⟩, ⟨"default", "standard", true⟩⟩)], 0⟩
      "d" ["t2", "t1"] 5
      ⟨"d", "T", none,
        [⟨"t1", "S", "red", [], 0⟩, ⟨"t2", "A", "blue", [], 1⟩],
        [], ⟨0, 0, 1, none⟩, ⟨"default", "standard", true⟩⟩
      rfl).2 (by decide)⟩

/-! ## C1: conservation of items under engine call sequences -/

theorem sameItems_self (o : Option TierList) : sameItems o o := by
  cases o with
  | none => trivial
  | some d => exact List.Perm.refl _

theorem sameItems_trans {o₁ o₂ o₃ : Option TierList}
    (h₁ : sameItems o₁ o₂) (h₂ : sameItems o₂ o₃) : sameItems o₁ o₃ := by
  cases o₁ with
  | none =>
    cases o₂ with
    | none => exact h₂
    | some b => exact absurd h₁ (by simp [sameItems])
  | some a =>
    cases o₂ with
    | none => exact absurd h₁ (by simp [sameItems])
    | some b =>
      cases o₃ with
      | none => exact absurd h₂ (by simp [sameItems])
      | some c => exact List.Perm.trans h₂ h₁

/-- Saving a document whose item-id multiset matches the loaded one
preserves well-keyedness and the per-document item multisets. -/
theorem update_preserves (st st2 : EngineState) (now : Nat) (tl d' : TierList)
    (docId : String) (hstore : st2.store = st.store)
    (hwk : WellKeyed st) (hdoc : loadDoc st docId = some tl) (hid : d'.id = tl.id)
    (hperm : (allItemIds d').Perm (allItemIds tl)) :
    WellKeyed (updateTierList now d' st2) ∧
      ItemsPreserved st (updateTierList now d' st2) := by
  have hkey : tl.id = docId := hwk docId tl hdoc
  have hload2 : ∀ id, loadDoc st2 id = loadDoc st id := by
    intro id
    simp [loadDoc, hstore]
  constructor
  · intro id d hd
    rw [loadDoc_updateTierList] at hd
    by_cases h : id = d'.id
    · rw [if_pos h] at hd
      cases hd
      simpa using h.symm
    · rw [if_neg h] at hd
      rw [hload2] at hd
      exact hwk id d hd
  · intro id
    rw [loadDoc_updateTierList]
    by_cases h : id = d'.id
    · rw [if_pos h]
      have hl : loadDoc st id = some tl := by
        rw [h, hid, hkey]
        exact hdoc
      rw [hl]
      exact hperm
    · rw [if_neg h, hload2]
      exact sameItems_self _

theorem find_by_id_nodup :
    ∀ (l : List Tier), (l.map (·.id)).Nodup → ∀ t ∈ l,
      l.find? (fun x => x.id = t.id) = some t := by
  intro l
  induction l with
  | nil => simp
  | cons h rest ih =>
    intro hnd t ht
    have hnd2 := hnd
    simp only [List.map_cons, List.nodup_cons] at hnd2
    obtain ⟨hhead, htail⟩ := hnd2
    by_cases hh : h.id = t.id
    · have : t = h ∨ t ∈ rest := by simpa using ht
      rcases this with rfl | htr
      · simp [List.find?]
      · exact absurd (hh ▸ List.mem_map.mpr ⟨t, htr, rfl⟩) hhead
    · have htr : t ∈ rest := by
        rcases (by simpa using ht : t = h ∨ t ∈ rest) with rfl | htr
        · exact absurd rfl hh
        · exact htr
      rw [List.find?_cons_of_neg _ (by simp [hh])]
      exact ih htail t htr

theorem tierMapGet_self {tiers : List Tier}
    (hnodup : (tiers.map (·.id)).Nodup) {t : Tier} (ht : t ∈ tiers) :
    tierMapGet tiers t.id = some t := by
  apply find_by_id_nodup
  · rw [List.map_reverse]
    exact (List.nodup_reverse).mpr hnodup
  · exact List.mem_reverse.mpr ht

/-- Shape of a successful `moveItem`: it is a save of a document with
the same id and item-id multiset as the loaded one. -/
theorem moveItem_ok (docId itemId : String) (targetTierId : Option String)
    (pos : Int) (now : Nat) (st : EngineState)
    (h : (moveItem docId itemId targetTierId pos now st).1 = .ok ()) :
    ∃ tl d', loadDoc st docId = some tl ∧ d'.id = tl.id
      ∧ (allItemIds d').Perm (allItemIds tl)
      ∧ (moveItem docId itemId targetTierId pos now st).2
          = updateTierList now d' st := by
  cases hdoc : loadDoc st docId with
  | none => simp [moveItem, hdoc] at h
  | some tl =>
    cases hfr : findAndRemoveItem tl itemId with
    | none => simp [moveItem, hdoc, hfr] at h
    | some a =>
      obtain ⟨it, tl1⟩ := a
      obtain ⟨hid, hperm, hdocid, hids⟩ := findAndRemoveItem_some tl itemId hfr
      have hunr : ∀ _ : ((targetTierId = none) ∨ (targetTierId = some "")),
          ∃ tl2 d', (some tl : Option TierList) = some tl2 ∧ d'.id = tl2.id
            ∧ (allItemIds d').Perm (allItemIds tl2)
            ∧ (moveItem docId itemId targetTierId pos now st).2
                = updateTierList now d' st := by
        intro htt
        refine ⟨tl, { tl1 with unrankedItems :=
            (insertAt it (spliceIdx tl1.unrankedItems.length pos)
              tl1.unrankedItems) }, rfl, hdocid, ?_, ?_⟩
        · refine List.Perm.trans ?_ hperm.symm
          simp only [allItemIds_eq]
          have h1 : ((insertAt it (spliceIdx tl1.unrankedItems.length pos)
              tl1.unrankedItems).map (·.id)).Perm
              (itemId :: tl1.unrankedItems.map (·.id)) := by
            simpa [hid] using
              (insertAt_perm it (spliceIdx tl1.unrankedItems.length pos)
                tl1.unrankedItems).map (·.id)
          exact (h1.append_left _).trans List.perm_middle
        · rcases htt with rfl | rfl <;> simp [moveItem, hdoc, hfr]
      cases targetTierId with
      | none => exact hunr (Or.inl rfl)
      | some tid =>
        by_cases hne : tid = ""
        · subst hne
          exact hunr (Or.inr rfl)
        · cases hins : insertIntoTier tid it pos tl1.tiers with
          | none => simp [moveItem, hdoc, hfr, hne, hins] at h
          | some ts' =>
            obtain ⟨hpermT, hidsT⟩ := insertIntoTier_some tid it pos hins
            refine ⟨tl, { tl1 with tiers := ts' }, rfl, hdocid, ?_, ?_⟩
            · refine List.Perm.trans ?_ hperm.symm
              simp only [allItemIds_eq]
              have h1 : (tiersItemIds ts').Perm (itemId :: tiersItemIds tl1.tiers) := by
                simpa [hid] using hpermT
              exact h1.append_right _
            · simp [moveItem, hdoc, hfr, hne, hins]

/-- Shape of a successful `addTier`: a save of the loaded document with
an empty tier appended, so with the same item-id multiset. -/
theorem addTier_ok (docId label color : String) (now : Nat) (st : EngineState)
    (t : Tier) (h : (addTier docId label color now st).1 = .ok t) :
    ∃ tl d', loadDoc st docId = some tl ∧ d'.id = tl.id
      ∧ (allItemIds d').Perm (allItemIds tl)
      ∧ (addTier docId label color now st).2
          = updateTierList now d' { st with ctr := st.ctr + 1 } := by
  cases hdoc : loadDoc st docId with
  | none => simp [addTier, hdoc] at h
  | some tl =>
    refine ⟨tl, { tl with tiers :=
        (tl.tiers ++ [⟨genId st.ctr, label, color, [], tl.tiers.length⟩]) },
      rfl, rfl, ?_, by simp [addTier, hdoc]⟩
    simp only [allItemIds_eq, tiersItemIds, List.map_append, List.flatten_append]
    simp

/-- Shape of a successful `removeTier`: a save of the loaded document
with one tier folded into the unranked pool, so with the same item-id
multiset. -/
theorem removeTier_ok (docId tierId : String) (now : Nat) (st : EngineState)
    (h : (removeTier docId tierId now st).1 = .ok ()) :
    ∃ tl d', loadDoc st docId = some tl ∧ d'.id = tl.id
      ∧ (allItemIds d').Perm (allItemIds tl)
      ∧ (removeTier docId tierId now st).2 = updateTierList now d' st := by
  cases hdoc : loadDoc st docId with
  | none => simp [removeTier, hdoc] at h
  | some tl =>
    cases hrf : removeFirst (fun t => t.id = tierId) tl.tiers with
    | none => simp [removeTier, hdoc, hrf] at h
    | some a =>
      obtain ⟨tier, rest⟩ := a
      obtain ⟨hpt, hperm⟩ := removeFirst_some _ hrf
      refine ⟨tl, { tl with
          unrankedItems := (tl.unrankedItems ++ tier.items),
          tiers := renumber 0 rest },
        rfl, rfl, ?_, by simp [removeTier, hdoc, hrf]⟩
      simp only [allItemIds_eq, renumber_itemIds, List.map_append]
      have h2 : (tiersItemIds tl.tiers).Perm
          (tier.items.map (·.id) ++ tiersItemIds rest) := by
        have := perm_flatten ((hperm.map (fun t => t.items.map (·.id))))
        simpa [tiersItemIds] using this
      refine List.perm_iff_count.mpr fun a => ?_
      have hc := h2.count_eq a
      simp only [List.count_append] at hc ⊢
      omega

/-- Shape of a successful `reorderTiers` whose argument is a permutation
of the (duplicate-free) tier ids: a save of the loaded document with
the tiers permuted, so with the same item-id multiset. -/
theorem reorderTiers_ok_perm (docId : String) (tierIds : List String)
    (now : Nat) (st : EngineState) (tl : TierList)
    (hdoc : loadDoc st docId = some tl)
    (hperm : tierIds.Perm (tl.tiers.map (·.id)))
    (hnodup : (tl.tiers.map (·.id)).Nodup) :
    ∃ d', d'.id = tl.id ∧ (allItemIds d').Perm (allItemIds tl)
      ∧ (reorderTiers docId tierIds now st).2 = updateTierList now d' st := by
  have hall : ∀ x ∈ tierIds, x ∈ tl.tiers.map (·.id) :=
    fun x hx => hperm.mem_iff.mp hx
  obtain ⟨ts', hts', hids, hitems⟩ := pickTiers_ok tl.tiers tierIds 0 hall
  refine ⟨{ tl with tiers := ts' }, rfl, ?_, by simp [reorderTiers, hdoc, hts']⟩
  simp only [allItemIds_eq]
  have hlift : tiersItemIds ts' = (tierIds.map
      (fun x => (((tierMapGet tl.tiers x).map (·.items)).getD []).map (·.id))).flatten := by
    have h1 : ts'.map (fun t => t.items.map (·.id))
        = tierIds.map (fun x => (((tierMapGet tl.tiers x).map (·.items)).getD []).map (·.id)) := by
      have h2 := congrArg (List.map (List.map (·.id))) hitems
      simpa [List.map_map, Function.comp] using h2
    simp [tiersItemIds, h1]
  have hright : tiersItemIds tl.tiers = ((tl.tiers.map (·.id)).map
      (fun x => (((tierMapGet tl.tiers x).map (·.items)).getD []).map (·.id))).flatten := by
    unfold tiersItemIds
    congr 1
    rw [List.map_map]
    refine List.map_congr_left fun t ht => ?_
    simp only [Function.comp]
    rw [tierMapGet_self hnodup ht]
    rfl
  refine List.Perm.append_right _ ?_
  rw [hlift, hright]
  exact perm_flatten (hperm.map _)

/-- One good engine step preserves well-keyedness and every document's
item-id multiset. -/
theorem goodStep_preserves {st st' : EngineState} (hwk : WellKeyed st)
    (hstep : GoodStep st st') :
    WellKeyed st' ∧ ItemsPreserved st st' := by
  cases hstep with
  | move docId itemId targetTierId pos now _ h =>
    obtain ⟨tl, d', hdoc, hid, hperm, heq⟩ :=
      moveItem_ok docId itemId targetTierId pos now _ h
    rw [heq]
    exact update_preserves _ _ now tl d' docId rfl hwk hdoc hid hperm
  | add docId label color now _ t h =>
    obtain ⟨tl, d', hdoc, hid, hperm, heq⟩ := addTier_ok docId label color now _ t h
    rw [heq]
    exact update_preserves _ _ now tl d' docId rfl hwk hdoc hid hperm
  | remove docId tierId now _ h =>
    obtain ⟨tl, d', hdoc, hid, hperm, heq⟩ := removeTier_ok docId tierId now _ h
    rw [heq]
    exact update_preserves _ _ now tl d' docId rfl hwk hdoc hid hperm
  | reorder docId tierIds now _ tl hdoc hperm hnodup h =>
    obtain ⟨d', hid, hpermI, heq⟩ :=
      reorderTiers_ok_perm docId tierIds now _ tl hdoc hperm hnodup
    rw [heq]
    exact update_preserves _ _ now tl d' docId rfl hwk hdoc hid hpermI

/-- Counterexample to C1: items are lost through a successful
`reorderTiers` whose id list covers only part of the tiers.  The
document holds the single item `i2` (inside tier `t2`); after the
successful call `reorderTiers ["t1"]` the persisted document contains
no items at all. -/
theorem reorder_subset_list_loses_items_counterexample :
    (reorderTiers "d" ["t1"] 5
        ⟨[("d", ⟨"d", "T", none,
          [⟨"t1", "S", "red", [], 0⟩,
            ⟨"t2", "A", "blue", [⟨"i2", "text", "", none⟩], 1⟩],
          [], ⟨0, 0, 1, none⟩, ⟨"default", "standard", true⟩⟩)], 0⟩).1 = .ok () ∧
    (loadDoc ⟨[("d", ⟨"d", "T", none,
        [⟨"t1", "S", "red", [], 0⟩,
          ⟨"t2", "A", "blue", [⟨"i2", "text", "", none⟩], 1⟩],
        [], ⟨0, 0, 1, none⟩, ⟨"default", "standard", true⟩⟩)], 0⟩ "d").map allItemIds
      = some ["i2"] ∧
    (loadDoc (reorderTiers "d" ["t1"] 5
        ⟨[("d", ⟨"d", "T", none,
          [⟨"t1", "S", "red", [], 0⟩,
            ⟨"t2", "A", "blue", [⟨"i2", "text", "", none⟩], 1⟩],
          [], ⟨0, 0, 1, none⟩, ⟨"default", "standard", true⟩⟩)], 0⟩).2 "d").map allItemIds
      = some [] := by
  exact ⟨rfl, rfl, rfl⟩

/-- C1 (amended): starting from a well-keyed store, after any sequence
of successful `moveItem`, `addTier` and `removeTier` calls, and
`reorderTiers` calls whose id list is a permutation of the document's
(duplicate-free) tier ids, every document still present has the same
item-id multiset as before; in particular a document whose item ids
were pairwise distinct keeps each item id exactly once — nothing is
duplicated and nothing is lost. -/
theorem item_conservation (st st' : EngineState) (hwk : WellKeyed st)
    (hsteps : Relation.ReflTransGen GoodStep st st')
    (docId : String) (d : TierList) (hdoc : loadDoc st docId = some d)
    (hnd : (allItemIds d).Nodup) :
    ∃ d', loadDoc st' docId = some d'
      ∧ (allItemIds d').Perm (allItemIds d) ∧ (allItemIds d').Nodup := by
  have main : WellKeyed st' ∧ ItemsPreserved st st' := by
    induction hsteps with
    | refl => exact ⟨hwk, fun id => sameItems_self _⟩
    | tail hs hstep ih =>
      obtain ⟨hwk2, hpres⟩ := ih
      obtain ⟨hwk3, hpres2⟩ := goodStep_preserves hwk2 hstep
      exact ⟨hwk3, fun id => sameItems_trans (hpres id) (hpres2 id)⟩
  obtain ⟨_, hpres⟩ := main
  have hsame := hpres docId
  rw [hdoc] at hsame
  cases hload : loadDoc st' docId with
  | none =>
    rw [hload] at hsame
    exact absurd hsame (by simp [sameItems])
  | some d' =>
    rw [hload] at hsame
    exact ⟨d', rfl, hsame, (hsame.nodup_iff).mpr hnd⟩

/-- Witness for C1 (amended): one concrete successful `moveItem` step on
a well-keyed one-document store keeps the item-id multiset a
permutation and duplicate-free. -/
theorem item_conservation_witness :
    ∃ d', loadDoc (moveItem "d" "i1" none 0 7
        ⟨[("d", ⟨"d", "T", none, [],
          [⟨"i1", "text", "", none⟩, ⟨"i2", "text", "", none⟩],
          ⟨0, 0, 1, none⟩, ⟨"default", "standard", true⟩⟩)], 0⟩).2 "d" = some d'
      ∧ (allItemIds d').Perm (allItemIds ⟨"d", "T", none, [],
          [⟨"i1", "text", "", none⟩, ⟨"i2", "text", "", none⟩],
          ⟨0, 0, 1, none⟩, ⟨"default", "standard", true⟩⟩)
      ∧ (allItemIds d').Nodup :=
  item_conservation
    ⟨[("d", ⟨"d", "T", none, [],
      [⟨"i1", "text", "", none⟩, ⟨"i2", "text", "", none⟩],
      ⟨0, 0, 1, none⟩, ⟨"default", "standard", true⟩⟩)], 0⟩
    (moveItem "d" "i1" none 0 7
      ⟨[("d", ⟨"d", "T", none, [],
        [⟨"i1", "text", "", none⟩, ⟨"i2", "text", "", none⟩],
        ⟨0, 0, 1, none⟩, ⟨"default", "standard", true⟩⟩)], 0⟩).2
    (fun id d h => by
      by_cases hid : "d" = id
      · subst hid
        have : some (⟨"d", "T", none, [],
            [⟨"i1", "text", "", none⟩, ⟨"i2", "text", "", none⟩],
            ⟨0, 0, 1, none⟩, ⟨"default", "standard", true⟩⟩ : TierList) = some d := by
          simpa [loadDoc, alookup] using h
        cases this
        rfl
      · exact absurd h (by simp [loadDoc, alookup, hid]))
    (Relation.ReflTransGen.single
      (GoodStep.move "d" "i1" none 0 7
        ⟨[("d", ⟨"d", "T", none, [],
          [⟨"i1", "text", "", none⟩, ⟨"i2", "text", "", none⟩],
          ⟨0, 0, 1, none⟩, ⟨"default", "standard", true⟩⟩)], 0⟩ rfl))
    "d"
    ⟨"d", "T", none, [],
      [⟨"i1", "text", "", none⟩, ⟨"i2", "text", "", none⟩],
      ⟨0, 0, 1, none⟩, ⟨"default", "standard", true⟩⟩
    rfl (by decide)

/-! ## C9: duplicateTierList -/

theorem genId_inj : Function.Injective genId := by
  intro m n h
  have h1 : ('#' :: List.replicate m '#') = ('#' :: List.replicate n '#') :=
    congrArg String.data h
  have h2 : List.replicate m '#' = List.replicate n '#' := by
    simpa using h1
  simpa using congrArg List.length h2

theorem genId_head (k : Nat) : (genId k).data.head? = some '#' := rfl

theorem genId_ne_of_head {s : String} (h : s.data.head? ≠ some '#') (k : Nat) :
    genId k ≠ s := fun he => h (he ▸ genId_head k)

theorem allIds_parts (tl : TierList) :
    allIds tl = tl.id :: (tiersAllIds tl.tiers ++ tl.unrankedItems.map (·.id)) := rfl

theorem tiersAllIds_length (ts : List Tier) :
    (tiersAllIds ts).length = tierWeight ts := by
  induction ts with
  | nil => rfl
  | cons t rest ih =>
    simp only [tiersAllIds, tierWeight, List.map_cons, List.flatten_cons,
      List.sum_cons, List.length_append, List.length_cons, List.length_map] at ih ⊢
    omega

theorem allIds_length (tl : TierList) :
    (allIds tl).length = tierWeight tl.tiers + tl.unrankedItems.length + 1 := by
  rw [allIds_parts]
  simp [tiersAllIds_length]

theorem freshItems_spec (l : List TierListItem) : ∀ c : Nat,
    (freshItems c l).2 = c + l.length
    ∧ (freshItems c l).1.map (·.id) = (List.range' c l.length).map genId
    ∧ (freshItems c l).1.map itemShape = l.map itemShape := by
  induction l with
  | nil => exact fun c => ⟨rfl, rfl, rfl⟩
  | cons it rest ih =>
    intro c
    obtain ⟨h1, h2, h3⟩ := ih (c + 1)
    refine ⟨?_, ?_, ?_⟩
    · simp only [freshItems, h1, List.length_cons]
      omega
    · simp [freshItems, h2, List.range'_succ]
    · simp [freshItems, h3, itemShape]

theorem freshTiers_spec (ts : List Tier) : ∀ c : Nat,
    (freshTiers c ts).2 = c + tierWeight ts
    ∧ tiersAllIds (freshTiers c ts).1 = (List.range' c (tierWeight ts)).map genId
    ∧ (freshTiers c ts).1.map tierShape = ts.map tierShape := by
  induction ts with
  | nil => exact fun c => ⟨rfl, rfl, rfl⟩
  | cons t rest ih =>
    intro c
    obtain ⟨hi1, hi2, hi3⟩ := freshItems_spec t.items (c + 1)
    obtain ⟨h1, h2, h3⟩ := ih ((freshItems (c + 1) t.items).2)
    have hw : tierWeight (t :: rest) = tierWeight rest + t.items.length + 1 := by
      simp only [tierWeight, List.map_cons, List.sum_cons]
      omega
    refine ⟨?_, ?_, ?_⟩
    · rw [hi1] at h1
      simp only [freshTiers]
      rw [hi1, h1, hw]
      omega
    · have happ := List.range'_append (c + 1) t.items.length (tierWeight rest) 1
      simp only [Nat.one_mul] at happ
      calc tiersAllIds (freshTiers c (t :: rest)).1
          = genId c :: ((freshItems (c + 1) t.items).1.map (·.id)
              ++ tiersAllIds (freshTiers (freshItems (c + 1) t.items).2 rest).1) := by
            simp [freshTiers, tiersAllIds]
        _ = genId c :: (((List.range' (c + 1) t.items.length).map genId)
              ++ ((List.range' (c + 1 + t.items.length) (tierWeight rest)).map genId)) := by
            rw [hi2, h2, hi1]
        _ = genId c :: ((List.range' (c + 1) t.items.length
              ++ List.range' (c + 1 + t.items.length) (tierWeight rest)).map genId) := by
            rw [List.map_append]
        _ = genId c :: ((List.range' (c + 1)
              (tierWeight rest + t.items.length)).map genId) := by
            rw [happ]
        _ = (List.range' c (tierWeight rest + t.items.length + 1)).map genId := by
            simp [List.range'_succ]
        _ = (List.range' c (tierWeight (t :: rest))).map genId := by rw [hw]
    · simp [freshTiers, h3, tierShape, hi3]

/-- The ids of the freshly re-identified copy that `duplicate` builds
are exactly the next `(allIds orig).length` generated ids, in supply
order. -/
theorem dupRecord_ids (orig : TierList) (c : Nat) (ttl : String) (now : Nat) :
    allIds { orig with
        id := genId c,
        title := ttl,
        tiers := (freshTiers (c + 1) orig.tiers).1,
        unrankedItems :=
          (freshItems (freshTiers (c + 1) orig.tiers).2 orig.unrankedItems).1,
        metadata :=
          ({ orig.metadata with createdAt := now, updatedAt := now, version := 1 }) }
      = (List.range' c (allIds orig).length).map genId := by
  obtain ⟨ht1, ht2, _⟩ := freshTiers_spec orig.tiers (c + 1)
  obtain ⟨_, hu2, _⟩ :=
    freshItems_spec orig.unrankedItems (freshTiers (c + 1) orig.tiers).2
  rw [allIds_length]
  have happ := List.range'_append (c + 1) (tierWeight orig.tiers)
    orig.unrankedItems.length 1
  simp only [Nat.one_mul] at happ
  calc allIds { orig with
        id := genId c,
        title := ttl,
        tiers := (freshTiers (c + 1) orig.tiers).1,
        unrankedItems :=
          (freshItems (freshTiers (c + 1) orig.tiers).2 orig.unrankedItems).1,
        metadata :=
          ({ orig.metadata with createdAt := now, updatedAt := now, version := 1 }) }
      = genId c :: (tiersAllIds (freshTiers (c + 1) orig.tiers).1
          ++ (freshItems (freshTiers (c + 1) orig.tiers).2
              orig.unrankedItems).1.map (·.id)) := rfl
    _ = genId c :: (((List.range' (c + 1) (tierWeight orig.tiers)).map genId)
          ++ ((List.range' (c + 1 + tierWeight orig.tiers)
              (orig.unrankedItems.length)).map genId)) := by
        rw [ht2, hu2, ht1]
    _ = genId c :: ((List.range' (c + 1) (tierWeight orig.tiers)
          ++ List.range' (c + 1 + tierWeight orig.tiers)
              (orig.unrankedItems.length)).map genId) := by
        rw [List.map_append]
    _ = genId c :: ((List.range' (c + 1)
          (orig.unrankedItems.length + tierWeight orig.tiers)).map genId) := by
        rw [happ]
    _ = (List.range' c
          (orig.unrankedItems.length + tierWeight orig.tiers + 1)).map genId := by
        simp [List.range'_succ]
    _ = (List.range' c
          (tierWeight orig.tiers + orig.unrankedItems.length + 1)).map genId := by
        rw [Nat.add_comm orig.unrankedItems.length (tierWeight orig.tiers)]

/-- Counterexample to C9: the claim says the duplicate's title is
`newTitle` whenever `newTitle` is given, but `newTitle || ...` treats
the given empty string as absent: duplicating with `newTitle = ""`
produces the title `T (Copy)`, not `""`. -/
theorem duplicateTierList_empty_title_counterexample :
    (duplicateTierList "d" (some "") 3
        ⟨[("d", ⟨"d", "T", none, [], [], ⟨0, 0, 1, none⟩,
          ⟨"default", "standard", true⟩⟩)], 0⟩).1
      = .ok ⟨genId 0, "T (Copy)", none, [], [], ⟨3, 3, 1, none⟩,
          ⟨"default", "standard", true⟩⟩ ∧
    "T (Copy)" ≠ "" := by
  exact ⟨rfl, by decide⟩

/-- C9 (amended): `duplicate` deep-copies the source document and gives
the copy, every tier and every item (tier items and unranked items
alike) fresh, pairwise-distinct ids disjoint from every id of the
source, while preserving the tier/item structure (labels, colors,
order fields, contents, order), the description and the settings; the
copy's version is 1, both timestamps are `now`, its title is `newTitle`
when given and non-empty (an empty `newTitle` is treated as absent) and
`"<original> (Copy)"` otherwise; and the copy is persisted under its
fresh id. -/
theorem duplicateTierList_spec (st : EngineState) (docId : String)
    (newTitle : Option String) (now : Nat) (orig : TierList)
    (hdoc : loadDoc st docId = some orig)
    (hfresh : ∀ k, genId k ∉ allIds orig)
    (hnt : ∀ t, newTitle = some t → t ≠ "") :
    (∃ dup, (duplicateTierList docId newTitle now st).1 = .ok dup) ∧
    (∀ dup, (duplicateTierList docId newTitle now st).1 = .ok dup →
      allIds dup = (List.range' st.ctr (allIds orig).length).map genId
      ∧ (allIds dup).Nodup
      ∧ (∀ x ∈ allIds dup, x ∉ allIds orig)
      ∧ dup.tiers.map tierShape = orig.tiers.map tierShape
      ∧ dup.unrankedItems.map itemShape = orig.unrankedItems.map itemShape
      ∧ dup.description = orig.description
      ∧ dup.settings = orig.settings
      ∧ dup.metadata.version = 1
      ∧ dup.metadata.createdAt = now
      ∧ dup.metadata.updatedAt = now
      ∧ dup.title = (match newTitle with
          | some t => t
          | none => orig.title ++ " (Copy)")
      ∧ loadDoc (duplicateTierList docId newTitle now st).2 dup.id = some dup) := by
  obtain ⟨ht1, ht2, ht3⟩ := freshTiers_spec orig.tiers (st.ctr + 1)
  obtain ⟨hu1, hu2, hu3⟩ :=
    freshItems_spec orig.unrankedItems (freshTiers (st.ctr + 1) orig.tiers).2
  constructor
  · simp only [duplicateTierList, hdoc, deepClone]
    exact ⟨_, rfl⟩
  · intro dup hdup
    simp only [duplicateTierList, hdoc, deepClone, Except.ok.injEq] at hdup
    subst hdup
    have hids := dupRecord_ids orig st.ctr (copyTitle orig.title newTitle) now
    refine ⟨hids, ?_, ?_, by simpa using ht3, by simpa using hu3, rfl, rfl, rfl, rfl,
      rfl, ?_, ?_⟩
    · rw [hids]
      exact (List.nodup_range' _ _).map genId_inj
    · intro x hx
      rw [hids] at hx
      obtain ⟨k, _, rfl⟩ := List.mem_map.mp hx
      exact hfresh k
    · cases newTitle with
      | none => rfl
      | some t => simp [copyTitle, hnt t rfl]
    · simp only [duplicateTierList, hdoc, deepClone]
      simp [loadDoc, alookup_upsert]

/-- Witness for C9 (amended): duplicating a concrete document whose ids
`d0/t0/a0/u0` never collide with the generated-id supply yields fresh
distinct ids, preserved structure, version 1 and the `(Copy)` title. -/
theorem duplicateTierList_spec_witness :
    ∃ dup, (duplicateTierList "d0" none 6
        ⟨[("d0", ⟨"d0", "T", none,
          [⟨"t0", "S", "red", [⟨"a0", "text", "x", none⟩], 0⟩],
          [⟨"u0", "text", "y", none⟩],
          ⟨0, 0, 4, none⟩, ⟨"default", "standard", true⟩⟩)], 0⟩).1 = .ok dup :=
  (duplicateTierList_spec
    ⟨[("d0", ⟨"d0", "T", none,
      [⟨"t0", "S", "red", [⟨"a0", "text", "x", none⟩], 0⟩],
      [⟨"u0", "text", "y", none⟩],
      ⟨0, 0, 4, none⟩, ⟨"default", "standard", true⟩⟩)], 0⟩
    "d0" none 6
    ⟨"d0", "T", none,
      [⟨"t0", "S", "red", [⟨"a0", "text", "x", none⟩], 0⟩],
      [⟨"u0", "text", "y", none⟩],
      ⟨0, 0, 4, none⟩, ⟨"default", "standard", true⟩⟩
    rfl
    (fun k hmem => by
      have hlist : allIds ⟨"d0", "T", none,
          [⟨"t0", "S", "red", [⟨"a0", "text", "x", none⟩], 0⟩],
          [⟨"u0", "text", "y", none⟩],
          ⟨0, 0, 4, none⟩, ⟨"default", "standard", true⟩⟩
          = ["d0", "t0", "a0", "u0"] := rfl
      rw [hlist] at hmem
      simp only [List.mem_cons, List.not_mem_nil, or_false] at hmem
      rcases hmem with h | h | h | h
      · exact genId_ne_of_head (by decide) k h
      · exact genId_ne_of_head (by decide) k h
      · exact genId_ne_of_head (by decide) k h
      · exact genId_ne_of_head (by decide) k h)
    (fun t ht => by cases ht)).1

/-! ## C4: engine-level single-document import -/

/-- Counterexample to C4: `importTierList` performs no schema check.
The parsed value `\x7b "metadata": \x7b\x7d \x7d` fails the Document
schema (`validateTierList` is false: no id, title, tiers or unranked
items), yet import succeeds, returning (and persisting) the
schema-invalid value with only a fresh id and reset metadata. -/
theorem importTierList_no_validation_counterexample :
    validateTierList (.jobj [("metadata", .jobj [])]) = false ∧
    (importTierList (.ok (.jobj [("metadata", .jobj [])])) 7 ⟨[], 0⟩).1
      = .ok (.jobj [("metadata", .jobj [("createdAt", .jdate 7),
          ("updatedAt", .jdate 7), ("version", .jnum 1)]),
          ("id", .jstr (genId 0))]) ∧
    alookup (genId 0)
        (importTierList (.ok (.jobj [("metadata", .jobj [])])) 7 ⟨[], 0⟩).2.jstore
      = some (.jobj [("metadata", .jobj [("createdAt", .jdate 7),
          ("updatedAt", .jdate 7), ("version", .jnum 1)]),
          ("id", .jstr (genId 0))]) :=
  ⟨rfl, rfl, rfl⟩

/-- C4 (amended): engine-level import fails with `ImportError` when the
input is not parseable JSON, and also when the parsed value cannot take
the id/metadata mutations — a primitive value, or an object whose
`metadata` field is missing or primitive (the strict-mode `TypeError`
is caught and wrapped); in each failure case the store is untouched.
Any other parsed value is accepted with NO schema validation: the
result carries the fresh id `genId st.ctr`, `metadata.version = 1` and
both timestamps set to `now`, and is persisted under the fresh id. -/
theorem importTierList_spec (now : Nat) (st : ImportState) :
    (∀ e, importTierList (.error e) now st
        = (.error ("Failed to import tier list: " ++ e), st)) ∧
    (importTierList (.ok .jnull) now st
        = (.error "Failed to import tier list: TypeError", st)) ∧
    (∀ b, importTierList (.ok (.jbool b)) now st
        = (.error "Failed to import tier list: TypeError", st)) ∧
    (∀ n, importTierList (.ok (.jnum n)) now st
        = (.error "Failed to import tier list: TypeError", st)) ∧
    (∀ s, importTierList (.ok (.jstr s)) now st
        = (.error "Failed to import tier list: TypeError", st)) ∧
    (∀ fields, alookup "metadata" fields = none →
      importTierList (.ok (.jobj fields)) now st
        = (.error "Failed to import tier list: TypeError", st)) ∧
    (∀ fields mv, alookup "metadata" fields = some mv →
      (∀ mfs, mv ≠ .jobj mfs) → (∀ es ps, mv ≠ .jarr es ps) →
      importTierList (.ok (.jobj fields)) now st
        = (.error "Failed to import tier list: TypeError", st)) ∧
    (∀ v v', (importTierList (.ok v) now st).1 = .ok v' →
      getField v' "id" = some (.jstr (genId st.ctr))
      ∧ (∃ mv, getField v' "metadata" = some mv
          ∧ getField mv "version" = some (.jnum 1)
          ∧ getField mv "createdAt" = some (.jdate now)
          ∧ getField mv "updatedAt" = some (.jdate now))
      ∧ alookup (genId st.ctr) (importTierList (.ok v) now st).2.jstore = some v'
      ∧ (importTierList (.ok v) now st).2.ctr = st.ctr + 1) := by
  refine ⟨fun e => rfl, rfl, fun b => rfl, fun n => rfl, fun s => rfl, ?_, ?_, ?_⟩
  · intro fields hm
    simp [importTierList, assignImport, hm]
  · intro fields mv hm hobj harr
    cases mv with
    | jobj mfs => exact absurd rfl (hobj mfs)
    | jarr es ps => exact absurd rfl (harr es ps)
    | jnull => simp [importTierList, assignImport, hm]
    | jbool b => simp [importTierList, assignImport, hm]
    | jnum n => simp [importTierList, assignImport, hm]
    | jstr s => simp [importTierList, assignImport, hm]
    | jdate t => simp [importTierList, assignImport, hm]
  · intro v v' hok
    cases v with
    | jnull => simp [importTierList, assignImport] at hok
    | jbool b => simp [importTierList, assignImport] at hok
    | jnum n => simp [importTierList, assignImport] at hok
    | jstr s => simp [importTierList, assignImport] at hok
    | jdate t => simp [importTierList, assignImport] at hok
    | jobj fields =>
      cases hm : alookup "metadata" fields with
      | none => simp [importTierList, assignImport, hm] at hok
      | some mv =>
        cases mv with
        | jobj mfs =>
          simp only [importTierList, assignImport, hm, Option.map_some',
            Except.ok.injEq] at hok
          subst hok
          refine ⟨?_, ⟨.jobj (upsert "version" (.jnum 1) (upsert "updatedAt"
              (.jdate now) (upsert "createdAt" (.jdate now) mfs))),
              ?_, ?_, ?_, ?_⟩, ?_, ?_⟩ <;>
            simp [getField, alookup_upsert, importTierList, assignImport, hm]
        | jarr es ps =>
          simp only [importTierList, assignImport, hm, Option.map_some',
            Except.ok.injEq] at hok
          subst hok
          refine ⟨?_, ⟨.jarr es (upsert "version" (.jnum 1) (upsert "updatedAt"
              (.jdate now) (upsert "createdAt" (.jdate now) ps))),
              ?_, ?_, ?_, ?_⟩, ?_, ?_⟩ <;>
            simp [getField, alookup_upsert, importTierList, assignImport, hm]
        | jnull => simp [importTierList, assignImport, hm] at hok
        | jbool b => simp [importTierList, assignImport, hm] at hok
        | jnum n => simp [importTierList, assignImport, hm] at hok
        | jstr s => simp [importTierList, assignImport, hm] at hok
        | jdate t => simp [importTierList, assignImport, hm] at hok
    | jarr elems props =>
      cases hm : alookup "metadata" props with
      | none => simp [importTierList, assignImport, hm] at hok
      | some mv =>
        cases mv with
        | jobj mfs =>
          simp only [importTierList, assignImport, hm, Option.map_some',
            Except.ok.injEq] at hok
          subst hok
          refine ⟨?_, ⟨.jobj (upsert "version" (.jnum 1) (upsert "updatedAt"
              (.jdate now) (upsert "createdAt" (.jdate now) mfs))),
              ?_, ?_, ?_, ?_⟩, ?_, ?_⟩ <;>
            simp [getField, alookup_upsert, importTierList, assignImport, hm]
        | jarr es ps =>
          simp only [importTierList, assignImport, hm, Option.map_some',
            Except.ok.injEq] at hok
          subst hok
          refine ⟨?_, ⟨.jarr es (upsert "version" (.jnum 1) (upsert "updatedAt"
              (.jdate now) (upsert "createdAt" (.jdate now) ps))),
              ?_, ?_, ?_, ?_⟩, ?_, ?_⟩ <;>
            simp [getField, alookup_upsert, importTierList, assignImport, hm]
        | jnull => simp [importTierList, assignImport, hm] at hok
        | jbool b => simp [importTierList, assignImport, hm] at hok
        | jnum n => simp [importTierList, assignImport, hm] at hok
        | jstr s => simp [importTierList, assignImport, hm] at hok
        | jdate t => simp [importTierList, assignImport, hm] at hok

/-- Witness for C4 (amended): a parse failure is wrapped as an
`ImportError`, and a well-shaped parsed object is imported with the
fresh id and reset metadata. -/
theorem importTierList_spec_witness :
    importTierList (.error "Unexpected token") 7 ⟨[], 0⟩
      = (.error ("Failed to import tier list: " ++ "Unexpected token"), ⟨[], 0⟩) ∧
    (getField (.jobj [("metadata", .jobj [("createdAt", .jdate 7),
        ("updatedAt", .jdate 7), ("version", .jnum 1)]),
        ("id", .jstr (genId 0))]) "id" = some (.jstr (genId 0))
      ∧ (∃ mv, getField (.jobj [("metadata", .jobj [("createdAt", .jdate 7),
          ("updatedAt", .jdate 7), ("version", .jnum 1)]),
          ("id", .jstr (genId 0))]) "metadata" = some mv
          ∧ getField mv "version" = some (.jnum 1)
          ∧ getField mv "createdAt" = some (.jdate 7)
          ∧ getField mv "updatedAt" = some (.jdate 7))
      ∧ alookup (genId 0)
          (importTierList (.ok (.jobj [("metadata", .jobj [])])) 7 ⟨[], 0⟩).2.jstore
          = some (.jobj [("metadata", .jobj [("createdAt", .jdate 7),
            ("updatedAt", .jdate 7), ("version", .jnum 1)]),
            ("id", .jstr (genId 0))])
      ∧ (importTierList (.ok (.jobj [("metadata", .jobj [])])) 7 ⟨[], 0⟩).2.ctr = 0 + 1) :=
  ⟨(importTierList_spec 7 ⟨[], 0⟩).1 "Unexpected token",
   (importTierList_spec 7 ⟨[], 0⟩).2.2.2.2.2.2.2 (.jobj [("metadata", .jobj [])])
     (.jobj [("metadata", .jobj [("createdAt", .jdate 7),
       ("updatedAt", .jdate 7), ("version", .jnum 1)]),
       ("id", .jstr (genId 0))]) rfl⟩

/-! ## C5: whole-store import on the Local Store Provider -/

/-- Counterexample to C5: a parseable input that is not a valid store
blob does not fail.  Importing the JSON number `42` over a store
holding one document succeeds and replaces the store with a fresh empty
blob (the one stored document is silently gone). -/
theorem providerImport_invalid_blob_counterexample :
    (providerImport 5242880 (.ok (.jnum 42))
        ⟨some (.jobj [("version", .jstr "1.0.0"),
          ("tierLists", .jobj [("a", .jobj [("id", .jstr "a"),
            ("title", .jstr "T"), ("tiers", .jarr [] []),
            ("unrankedItems", .jarr [] []), ("metadata", .jobj []),
            ("settings", .jobj [])])]),
          ("settings", .jobj [("theme", .jstr "default"),
            ("autoSave", .jbool true)])]),
        some "1.0.0"⟩).1 = .ok () ∧
    (loadAllData ⟨some (.jobj [("version", .jstr "1.0.0"),
        ("tierLists", .jobj [("a", .jobj [("id", .jstr "a"),
          ("title", .jstr "T"), ("tiers", .jarr [] []),
          ("unrankedItems", .jarr [] []), ("metadata", .jobj []),
          ("settings", .jobj [])])]),
        ("settings", .jobj [("theme", .jstr "default"),
          ("autoSave", .jbool true)])]),
      some "1.0.0"⟩).tierLists.length = 1 ∧
    (loadAllData (providerImport 5242880 (.ok (.jnum 42))
        ⟨some (.jobj [("version", .jstr "1.0.0"),
          ("tierLists", .jobj [("a", .jobj [("id", .jstr "a"),
            ("title", .jstr "T"), ("tiers", .jarr [] []),
            ("unrankedItems", .jarr [] []), ("metadata", .jobj []),
            ("settings", .jobj [])])]),
          ("settings", .jobj [("theme", .jstr "default"),
            ("autoSave", .jbool true)])]),
        some "1.0.0"⟩).2).tierLists.length = 0 :=
  ⟨rfl, rfl, rfl⟩

/-- C5 (amended): whole-store import fails with `ImportError` (wrapping
the underlying message) exactly when the input is unparseable JSON —
the store is then untouched — or when writing the replacement blob
exceeds the capacity.  Every parseable input is accepted: it is
validated and migrated (a non-object becomes a fresh empty blob,
invalid document entries are dropped) and the result replaces the store
contents entirely — the post-import state does not depend on the prior
store contents (no merge). -/
theorem providerImport_spec (maxSize : Nat) (st : ProviderState) :
    (∀ e, providerImport maxSize (.error e) st
        = (.error ("Failed to import data: " ++ e), st)) ∧
    (∀ j, (serializeData (validateAndMigrateData j)).utf8ByteSize ≤ maxSize →
      providerImport maxSize (.ok j) st
        = (.ok (), ⟨some (roundtripJ (dataToJ (validateAndMigrateData j))),
            some CURRENT_VERSION⟩)) ∧
    (∀ j, (serializeData (validateAndMigrateData j)).utf8ByteSize > maxSize →
      providerImport maxSize (.ok j) st
        = (.error ("Failed to import data: " ++ capacityMsg
            (serializeData (validateAndMigrateData j)).utf8ByteSize maxSize), st)) := by
  refine ⟨fun e => rfl, ?_, ?_⟩
  · intro j hle
    have hnot : ¬ (serializeData (validateAndMigrateData j)).utf8ByteSize > maxSize :=
      Nat.not_lt.mpr hle
    simp [providerImport, saveAllData, hnot]
  · intro j hgt
    simp [providerImport, saveAllData, hgt]

/-- Witness for C5 (amended): importing the (tiny) number literal `42`
under the default 5 MiB capacity replaces any store with the fresh
empty blob, and importing over a 0-byte capacity fails with the wrapped
capacity error leaving the store unchanged. -/
theorem providerImport_spec_witness :
    providerImport 5242880 (.ok (.jnum 42)) ⟨none, none⟩
      = (.ok (), ⟨some (roundtripJ (dataToJ (validateAndMigrateData (.jnum 42)))),
          some CURRENT_VERSION⟩) ∧
    providerImport 0 (.ok (.jnum 42)) ⟨none, none⟩
      = (.error ("Failed to import data: " ++ capacityMsg
          (serializeData (validateAndMigrateData (.jnum 42))).utf8ByteSize 0),
        ⟨none, none⟩) :=
  ⟨(providerImport_spec 5242880 ⟨none, none⟩).2.1 (.jnum 42) (by decide),
   (providerImport_spec 0 ⟨none, none⟩).2.2 (.jnum 42) (by decide)⟩

end TierListApp
